import Mathlib

/-!
Verification development for `montecarlo.py` (Monte Carlo power-law
scaling-regime finder).

The Python source is shallowly embedded as follows.  Numpy arrays become
`List α` over a linear ordered field (exact arithmetic in place of IEEE
floats), the external collaborators from the sibling modules `distances`,
`brent` and `likelihoods` (`find_d_sorted`, `find_ad_sorted`,
`find_d_sorted_discrete`, `brent_findmin`, `brent_findmin_discrete`,
`find_nearest_idx`, `find_nearest_idx_discrete`, `pl_gen`) together with the
numpy primitives `np.exp`, `np.log`, `np.sqrt` and the process-wide random
stream become explicit function parameters, and the unbounded rejection loop
of `find_pl_montecarlo` is given an explicit fuel argument, returning `none`
exactly when the loop fails to exit within the given number of draws.
Fallible paths (validation failures) return the sentinel value the source
returns; the printed messages are side effects outside the value model.
-/

namespace Montecarlo

section Defs

variable {α : Type} [LinearOrderedField α]

/-- Embedding of `expfun(x, numterms)` (source lines 15–21): the accumulation
loop `val = val + (-1)**(i-1)*np.exp(-2*i**2*x**2)` for `i = 1..numterms`,
returning `2*val`.  The loop index `i` is `k+1` for `k = 0..numterms-1`, so the
sign is `(-1)^k`.  `E` stands for the external `np.exp`. -/
def expfun (E : α → α) (x : α) (numterms : ℕ) : α :=
  2 * (List.range numterms).foldl
    (fun (val : α) (k : ℕ) =>
      val + (-1 : α) ^ k * E (-2 * ((k : α) + 1) ^ (2 : ℕ) * x ^ (2 : ℕ))) 0

/-- The source's `expfun` at its default `numterms = 10`, with `np.exp`
interpreted as the real exponential function. -/
noncomputable def expfunR (x : ℝ) : ℝ :=
  expfun Real.exp x 10

/-- Embedding of `np.sort` on a one-dimensional array: the ascending sorted
copy of the input. -/
def np_sort (l : List α) : List α :=
  List.insertionSort (· ≤ ·) l

/-- Embedding of the condition of the rejection `while` loop (source line 208):
`(trial_xmax_idx - trial_xmin_idx < 10) or (trial_xmax < 2*trial_xmin)`,
where `trial_xmin`/`trial_xmax` are the data entries at the snapped indices
(lines 203–204 and 213–214).  The Python index subtraction is over ℤ, so
`j - i < 10` is rendered `j < i + 10`. -/
def loopCond (data : List α) (i j : ℕ) : Prop :=
  j < i + 10 ∨ data.getD j 0 < 2 * data.getD i 0

instance (data : List α) (i j : ℕ) : Decidable (loopCond data i j) :=
  inferInstanceAs (Decidable (j < i + 10 ∨ data.getD j 0 < 2 * data.getD i 0))

/-- Embedding of the rejection loop of `find_pl_montecarlo` (source lines
199–214).  Each attempt draws `trial_xmin`/`trial_xmax` and snaps them to data
indices; `props k` is the snapped index pair produced by attempt `k`
(the first attempt is the draw made before the `while`).  The loop returns the
first attempt for which the `while` condition fails; `fuel` bounds the number
of attempts inspected, with `none` modelling non-termination within that
bound. -/
def genPair (data : List α) : (ℕ → ℕ × ℕ) → ℕ → Option (ℕ × ℕ)
  | _, 0 => none
  | props, fuel + 1 =>
    let p := props 0
    if loopCond data p.1 p.2 then genPair data (fun k => props (k + 1)) fuel
    else some p

/-- One recorded trial of the sweep loop of `find_pl_montecarlo`: the values
written into the `attempted_*` arrays at one loop index (source lines
215–235), together with the snapped index pair and the loop-local `tmpd`. -/
structure Trial (α : Type) where
  xmin_idx : ℕ
  xmax_idx : ℕ
  xmin : α
  xmax : α
  alpha : α
  tmpd : α
  d : α
  n : ℕ
  pq : α

/-- A default trial record (used only as an out-of-range default). -/
def trialDefault : Trial α :=
  ⟨0, 0, 0, 0, 0, 0, 0, 0, 0⟩

/-- Embedding of the body of one sweep iteration after the rejection loop has
produced the snapped pair `p` (source lines 215–235):
`trimmed = data[trial_xmin_idx:trial_xmax_idx+1]`, `alpha_hat = brent(trimmed)`,
`tmpd = 1` updated to `dfun(trimmed, alpha_hat)` only when `alpha_hat > 1`,
`attempted_ds[i]` updated from `distfun` only when `alpha_hat > 1` (else it
keeps its initial value `1e12`), `n = len(trimmed)`, then
`tmpd = tmpd*np.sqrt(n)` and
`attempted_pqs[i] = expfun(tmpd + 0.17/np.sqrt(n) + (tmpd - 1)/(4*n))`.
`E` and `S` stand for the external `np.exp` and `np.sqrt`. -/
def mkTrial (distfun dfun : List α → α → α) (brent : List α → α) (E S : α → α)
    (data : List α) (p : ℕ × ℕ) : Trial α :=
  let trimmed := (data.drop p.1).take (p.2 + 1 - p.1)
  let alpha_hat := brent trimmed
  let tmpd := if 1 < alpha_hat then dfun trimmed alpha_hat else 1
  let d := if 1 < alpha_hat then distfun trimmed alpha_hat else 10 ^ 12
  let n := trimmed.length
  let z := tmpd * S (n : α)
  ⟨p.1, p.2, data.getD p.1 0, data.getD p.2 0, alpha_hat, tmpd, d, n,
    expfun E (z + (17 / 100) / S (n : α) + (z - 1) / (4 * (n : α))) 10⟩

/-- Helper for `sweep`: runs the remaining trials starting at run index `r`.
Returns `none` as soon as one rejection loop exhausts its fuel. -/
def sweepAux (distfun dfun : List α → α → α) (brent : List α → α) (E S : α → α)
    (data : List α) (props : ℕ → ℕ → ℕ × ℕ) (fuel : ℕ) :
    ℕ → ℕ → Option (List (Trial α))
  | _, 0 => some []
  | r, rem + 1 =>
    match genPair data (props r) fuel with
    | none => none
    | some p =>
      match sweepAux distfun dfun brent E S data props fuel (r + 1) rem with
      | none => none
      | some ts => some (mkTrial distfun dfun brent E S data p :: ts)

/-- Embedding of the trial sweep of `find_pl_montecarlo` (source lines
198–235): `runs` iterations, iteration `r` drawing its snapped index pairs
from the attempt stream `props r`.  The batch element at position `r` holds
the values recorded in the `attempted_*` arrays at index `r`. -/
def sweep (distfun dfun : List α → α → α) (brent : List α → α) (E S : α → α)
    (data : List α) (props : ℕ → ℕ → ℕ × ℕ) (fuel runs : ℕ) :
    Option (List (Trial α)) :=
  sweepAux distfun dfun brent E S data props fuel 0 runs

/-- Embedding of `np.where(a > c)[0]`: the ascending list of indices `i` with
`a[i] > c` (source lines 239 and 266). -/
def np_where_gt (a : List α) (c : α) : List ℕ :=
  (List.range a.length).filter fun i => decide (c < a.getD i 0)

/-- Embedding of numpy fancy indexing `a[idxs]` (source lines 251–254 and
278–282). -/
def np_take (a : List α) (idxs : List ℕ) : List α :=
  idxs.map fun i => a.getD i 0

/-- Embedding of `np.argmax`: the index of the first occurrence of the maximum
value (numpy's documented tie-breaking), as a left-to-right scan. -/
def npArgmax (a : List α) : ℕ :=
  (List.range a.length).foldl (fun b j => if a.getD b 0 < a.getD j 0 then j else b) 0

/-- Embedding of the filtering/selection phase of `find_pl_montecarlo` after
the sweep (source lines 160–161 and 239–295).  `axmins`, `axmaxs`, `aalphas`,
`apqs` are the `attempted_*` arrays filled by the sweep; `fpc` stands for
`find_p_core(data, ·, ·, pruns, dfun)`.  Mirrors, in order: the `calc_p`
override of `pcrit` (lines 160–161), the approximate filter and its
empty-candidate fallback (lines 239–249), the fancy-indexing of the
`possible_*` arrays (251–254), the computation of `possible_ps` (259–263), the
true-p filter and its empty-candidate fallback (266–276), and the final
argmax of `possible_xmaxs2/possible_xmins2` (278–295). -/
def find_pl_post (axmins axmaxs aalphas apqs : List α) (pqcrit pcrit0 : α)
    (calc_p : Bool) (fpc : List α → List α → List α) : α × α × α :=
  let pcrit := if calc_p then pcrit0 else pqcrit
  let idxs := np_where_gt apqs pqcrit
  if idxs = [] then
    let minidx := npArgmax apqs
    (axmins.getD minidx 0, axmaxs.getD minidx 0, aalphas.getD minidx 0)
  else
    let possible_xmins := np_take axmins idxs
    let possible_xmaxs := np_take axmaxs idxs
    let possible_alphas := np_take aalphas idxs
    let possible_pqs := np_take apqs idxs
    let possible_ps := if calc_p then fpc possible_xmins possible_xmaxs else possible_pqs
    let idxs2 := np_where_gt possible_ps pcrit
    if idxs2 = [] then
      let minidx := npArgmax possible_ps
      (possible_xmins.getD minidx 0, possible_xmaxs.getD minidx 0,
        possible_alphas.getD minidx 0)
    else
      let possible_xmins2 := np_take possible_xmins idxs2
      let possible_xmaxs2 := np_take possible_xmaxs idxs2
      let possible_alphas2 := np_take possible_alphas idxs2
      let minidx := npArgmax (List.zipWith (fun u v => u / v) possible_xmaxs2 possible_xmins2)
      (possible_xmins2.getD minidx 0, possible_xmaxs2.getD minidx 0,
        possible_alphas2.getD minidx 0)

/-- Embedding of `find_true_p` (source lines 46–69).  `nearest`, `brent`,
`dfun` stand for the external `find_nearest_idx`, `brent_findmin` and the
distance-function argument; `S` stands for `np.sqrt`; `plgen k n xmin xmax a`
stands for the output of the random generator `pl_gen(n, xmin, xmax, a)` on
loop iteration `k`.  The counter `tot` counts the iterations with
`ds >= de`; the function returns `(tot/runs, sqrt(p*(1-p)/runs))`. -/
def find_true_p (nearest : List α → α → ℕ) (brent : List α → α)
    (dfun : List α → α → α) (S : α → α)
    (plgen : ℕ → ℕ → α → α → α → List α)
    (x : List α) (xmin xmax : α) (runs : ℕ) : α × α :=
  let xmin_idx := nearest x xmin
  let xmax_idx := nearest x xmax
  let x2 := (x.drop xmin_idx).take (xmax_idx + 1 - xmin_idx)
  let n := x2.length
  let alpha := brent x2
  let de := dfun x2 alpha
  let tot := (List.range runs).countP fun k =>
    let synth := np_sort (plgen k n xmin xmax alpha)
    decide (de ≤ dfun synth (brent synth))
  let p := (tot : α) / (runs : α)
  (p, S (p * (1 - p) / (runs : α)))

/-- Embedding of `find_p_core` (source lines 72–83): for each candidate `i`,
trim `data` to the snapped range of `(possible_xmins[i], possible_xmaxs[i])`
and keep the first component of `find_true_p` on the trimmed sample.  Inside
`find_true_p` the source always uses the continuous `find_nearest_idx` and
`brent_findmin` (they are hard-wired in the jitted code), so `nearest` and
`brent` here are those continuous collaborators; the `numba.prange` parallel
loop is order-independent and is embedded as a map. -/
def find_p_core (nearest : List α → α → ℕ) (brent : List α → α)
    (dfun : List α → α → α) (S : α → α)
    (plgen : ℕ → ℕ → ℕ → α → α → α → List α)
    (data pxmins pxmaxs : List α) (pruns : ℕ) : List α :=
  (List.range pxmins.length).map fun i =>
    let xmin := pxmins.getD i 0
    let xmax := pxmaxs.getD i 0
    let a := nearest data xmin
    let b := nearest data xmax
    let trimmed := (data.drop a).take (b + 1 - a)
    (find_true_p nearest brent dfun S (plgen i) trimmed xmin xmax pruns).1

/-- The external collaborators of `montecarlo.py` (from the sibling modules
`distances`, `brent`, `likelihoods` and numpy), plus the random stream,
bundled as explicit parameters.  `rand r k` is the pair of uniform draws made
by attempt `k` of the rejection loop of sweep iteration `r`;
`pl_gen i k n xmin xmax a` is the synthetic sample drawn by `pl_gen` for
candidate `i`, true-p iteration `k`. -/
structure Collab (α : Type) where
  find_d_sorted : List α → α → α
  find_ad_sorted : List α → α → α
  find_d_sorted_discrete : List α → α → α
  brent_findmin : List α → α
  brent_findmin_discrete : List α → α
  find_nearest_idx : List α → α → ℕ
  find_nearest_idx_discrete : List α → α → ℕ → ℕ
  pl_gen : ℕ → ℕ → ℕ → α → α → α → List α
  np_exp : α → α
  np_log : α → α
  np_sqrt : α → α
  rand : ℕ → ℕ → α × α

/-- Embedding of the body of `find_pl_montecarlo` once the distance type has
been dispatched (source lines 184–295): the snapped proposal stream composes
the log-uniform draws (lines 191–193, 199–202, 209–212) with the selected
nearest-index functions `nf`/`nl`; then the sweep runs and the selection phase
produces the result.  `none` models non-termination of a rejection loop. -/
def find_pl_body (cb : Collab α) (distfun dfun : List α → α → α)
    (brent : List α → α) (nf nl : List α → α → ℕ) (data : List α)
    (runs : ℕ) (pqcrit pcrit : α) (pruns fuel : ℕ) (calc_p : Bool) :
    Option (α × α × α) :=
  let log_xmin := cb.np_log (data.getD 0 0)
  let log_range := cb.np_log (data.getD (data.length - 1) 0) - log_xmin
  let props : ℕ → ℕ → ℕ × ℕ := fun r k =>
    let u := cb.rand r k
    (nf data (cb.np_exp (log_xmin + log_range * u.1)),
     nl data (cb.np_exp (log_xmin + log_range * u.2)))
  match sweep distfun dfun brent cb.np_exp cb.np_sqrt data props fuel runs with
  | none => none
  | some batch =>
    some (find_pl_post (batch.map (·.xmin)) (batch.map (·.xmax))
      (batch.map (·.alpha)) (batch.map (·.pq)) pqcrit pcrit calc_p
      (fun pxmins pxmaxs =>
        find_p_core cb.find_nearest_idx cb.brent_findmin dfun cb.np_sqrt
          cb.pl_gen data pxmins pxmaxs pruns))

/-- Embedding of `find_pl_montecarlo` (source lines 87–295).  The data is
sorted once at entry (line 152); the `dist_type` string dispatches the
distance, fitter and nearest-index collaborators (lines 153–182): `'KS'`
keeps the defaults, `'AD'` replaces only `distfun` by `find_ad_sorted`,
`'discrete'` selects the discrete collaborators and first validates that no
datum is `< 1`, returning the sentinel `(0, 0, 1)` (the source's `defaults`
list) on violation, and any other string returns the same sentinel.
`fuel` bounds each rejection loop; `none` models non-termination. -/
def find_pl_montecarlo (cb : Collab α) (data0 : List α) (runs : ℕ)
    (pqcrit pcrit : α) (pruns : ℕ) (dist_type : String) (calc_p : Bool)
    (fuel : ℕ) : Option (α × α × α) :=
  let data := np_sort data0
  if dist_type = "KS" then
    find_pl_body cb cb.find_d_sorted cb.find_d_sorted cb.brent_findmin
      cb.find_nearest_idx cb.find_nearest_idx data runs pqcrit pcrit pruns fuel calc_p
  else if dist_type = "AD" then
    find_pl_body cb cb.find_ad_sorted cb.find_d_sorted cb.brent_findmin
      cb.find_nearest_idx cb.find_nearest_idx data runs pqcrit pcrit pruns fuel calc_p
  else if dist_type = "discrete" then
    if data.any fun v => decide (v < 1) then some (0, 0, 1)
    else
      find_pl_body cb cb.find_d_sorted_discrete cb.find_d_sorted_discrete
        cb.brent_findmin_discrete (fun x v => cb.find_nearest_idx_discrete x v 1)
        (fun x v => cb.find_nearest_idx_discrete x v 0) data runs pqcrit pcrit
        pruns fuel calc_p
  else some (0, 0, 1)

/-- A heap of numpy array buffers, for the mutation (frame) analysis: `mem b`
is the current contents of buffer `b`, and buffers `≥ next` are unallocated.
Every numpy operation the source performs is modelled at this level by the
buffer it allocates or the buffer cell it writes. -/
structure Heap (α : Type) where
  mem : ℕ → List α
  next : ℕ

/-- Allocation of a fresh buffer holding `v` (models `np.sort`, `np.ones`,
`np.zeros`, `np.where`, fancy indexing and elementwise arithmetic, all of
which return newly allocated arrays). -/
def halloc (h : Heap α) (v : List α) : ℕ × Heap α :=
  (h.next, ⟨Function.update h.mem h.next v, h.next + 1⟩)

/-- A single-cell store `buf[i] = v` (models the subscript assignments
`attempted_ds[i] = ...` etc.). -/
def hwrite (h : Heap α) (b i : ℕ) (v : α) : Heap α :=
  ⟨Function.update h.mem b ((h.mem b).set i v), h.next⟩

/-- Read of a whole buffer. -/
def hread (h : Heap α) (b : ℕ) : List α :=
  h.mem b

/-- One loop iteration of `find_p_core` at the heap level (source line 81):
the write `possible_ps[i] = find_true_p(trimmed, xmin, xmax, pruns, dfun)[0]`
into the buffer `pid`. -/
def true_p_write (nearest : List α → α → ℕ) (brent : List α → α)
    (dfun : List α → α → α) (S : α → α)
    (plgen : ℕ → ℕ → ℕ → α → α → α → List α)
    (data pxmins pxmaxs : List α) (pruns pid : ℕ)
    (hh : Heap α) (i : ℕ) : Heap α :=
  let xmin := pxmins.getD i 0
  let xmax := pxmaxs.getD i 0
  let lo := nearest data xmin
  let hi := nearest data xmax
  let trimmed := (data.drop lo).take (hi + 1 - lo)
  hwrite hh pid i
    (find_true_p nearest brent dfun S (plgen i) trimmed xmin xmax pruns).1

/-- Heap-level effects of `find_p_core` (source lines 72–83): allocates
`possible_ps = np.zeros(len(possible_xmins))` and fills it cell by cell with
the first components of `find_true_p`; all other accesses are reads
(`find_true_p` itself only rebinds local names to slices and reads them).
Returns the buffer id of `possible_ps` and the final heap. -/
def find_p_core_heap (nearest : List α → α → ℕ) (brent : List α → α)
    (dfun : List α → α → α) (S : α → α)
    (plgen : ℕ → ℕ → ℕ → α → α → α → List α)
    (h0 : Heap α) (data pxmins pxmaxs : List α) (pruns : ℕ) : ℕ × Heap α :=
  let a := halloc h0 (List.replicate pxmins.length 0)
  let pid := a.1
  let h := (List.range pxmins.length).foldl
    (true_p_write nearest brent dfun S plgen data pxmins pxmaxs pruns pid) a.2
  (pid, h)

/-- One sweep iteration of `find_pl_montecarlo` at the heap level (source
lines 215–235): the writes into the six `attempted_*` buffers at index `r`,
with `attempted_ds[r]` written only when the fitted alpha exceeds 1 (lines
218–219). -/
def sweep_write (batch : List (Trial α))
    (xminsId xmaxsId alphasId nsId pqsId dsId : ℕ)
    (hh : Heap α) (r : ℕ) : Heap α :=
  let t := batch.getD r trialDefault
  let h1 := if 1 < t.alpha then hwrite hh dsId r t.d else hh
  let h2 := hwrite h1 pqsId r t.pq
  let h3 := hwrite h2 nsId r (t.n : α)
  let h4 := hwrite h3 alphasId r t.alpha
  let h5 := hwrite h4 xminsId r t.xmin
  hwrite h5 xmaxsId r t.xmax

/-- Heap-level effects of the body of `find_pl_montecarlo` after dispatch
(source lines 184–295): allocates the six `attempted_*` arrays (lines
185–190), writes each of them at index `r` on sweep iteration `r` — with
`attempted_ds[r]` written only when `alpha_hat > 1` (lines 218–219, 231–235)
— then allocates the arrays of the selection phase (`np.where` results, the
fancy-indexed `possible_*` arrays, `possible_ps`, the elementwise quotient)
and computes the returned triple.  Cell values are the ones computed by the
pure embedding. -/
def find_pl_body_heap (cb : Collab α) (distfun dfun : List α → α → α)
    (brent : List α → α) (nf nl : List α → α → ℕ) (h0 : Heap α) (dId : ℕ)
    (runs : ℕ) (pqcrit pcrit : α) (pruns fuel : ℕ) (calc_p : Bool) :
    Option (α × α × α) × Heap α :=
  let data := hread h0 dId
  let a1 := halloc h0 (List.replicate runs 1)
  let a2 := halloc a1.2 (List.replicate runs 1)
  let a3 := halloc a2.2 (List.replicate runs 1)
  let a4 := halloc a3.2 (List.replicate runs 1)
  let a5 := halloc a4.2 (List.replicate runs 1)
  let a6 := halloc a5.2 (List.replicate runs ((10 : α) ^ (12 : ℕ)))
  let xminsId := a1.1
  let xmaxsId := a2.1
  let alphasId := a3.1
  let nsId := a4.1
  let pqsId := a5.1
  let dsId := a6.1
  let log_xmin := cb.np_log (data.getD 0 0)
  let log_range := cb.np_log (data.getD (data.length - 1) 0) - log_xmin
  let props : ℕ → ℕ → ℕ × ℕ := fun r k =>
    let u := cb.rand r k
    (nf data (cb.np_exp (log_xmin + log_range * u.1)),
     nl data (cb.np_exp (log_xmin + log_range * u.2)))
  match sweep distfun dfun brent cb.np_exp cb.np_sqrt data props fuel runs with
  | none => (none, a6.2)
  | some batch =>
    let h := (List.range runs).foldl
      (sweep_write batch xminsId xmaxsId alphasId nsId pqsId dsId) a6.2
    let axmins := hread h xminsId
    let axmaxs := hread h xmaxsId
    let aalphas := hread h alphasId
    let apqs := hread h pqsId
    let pcritEff := if calc_p then pcrit else pqcrit
    let idxs := np_where_gt apqs pqcrit
    let b1 := halloc h (idxs.map fun i => (i : α))
    let b2 := halloc b1.2 (np_take axmins idxs)
    let b3 := halloc b2.2 (np_take axmaxs idxs)
    let b4 := halloc b3.2 (np_take aalphas idxs)
    let b5 := halloc b4.2 (np_take apqs idxs)
    let c0 :=
      if calc_p then
        find_p_core_heap cb.find_nearest_idx cb.brent_findmin dfun cb.np_sqrt
          cb.pl_gen b5.2 data (np_take axmins idxs) (np_take axmaxs idxs) pruns
      else (b5.1, b5.2)
    let possible_ps := hread c0.2 c0.1
    let idxs2 := np_where_gt possible_ps pcritEff
    let c1 := halloc c0.2 (idxs2.map fun i => (i : α))
    let c2 := halloc c1.2 (np_take (np_take axmins idxs) idxs2)
    let c3 := halloc c2.2 (np_take (np_take axmaxs idxs) idxs2)
    let c4 := halloc c3.2 (np_take (np_take aalphas idxs) idxs2)
    let c5 := halloc c4.2
      (List.zipWith (fun u v => u / v) (np_take (np_take axmaxs idxs) idxs2)
        (np_take (np_take axmins idxs) idxs2))
    (some (find_pl_post axmins axmaxs aalphas apqs pqcrit pcrit calc_p
        (fun _ _ => possible_ps)), c5.2)

/-- Heap-level effects of `find_pl_montecarlo` (source lines 87–295): the
entry `data = np.sort(data)` allocates a sorted copy and rebinds the local
name to it (line 152) — the caller's buffer `dataId` is never written —
then validation and the body run on the copy. -/
def find_pl_montecarlo_heap (cb : Collab α) (h0 : Heap α) (dataId : ℕ)
    (runs : ℕ) (pqcrit pcrit : α) (pruns : ℕ) (dist_type : String)
    (calc_p : Bool) (fuel : ℕ) : Option (α × α × α) × Heap α :=
  let s := halloc h0 (np_sort (hread h0 dataId))
  let dId := s.1
  let h := s.2
  let data := hread h dId
  if dist_type = "KS" then
    find_pl_body_heap cb cb.find_d_sorted cb.find_d_sorted cb.brent_findmin
      cb.find_nearest_idx cb.find_nearest_idx h dId runs pqcrit pcrit pruns fuel calc_p
  else if dist_type = "AD" then
    find_pl_body_heap cb cb.find_ad_sorted cb.find_d_sorted cb.brent_findmin
      cb.find_nearest_idx cb.find_nearest_idx h dId runs pqcrit pcrit pruns fuel calc_p
  else if dist_type = "discrete" then
    if data.any fun v => decide (v < 1) then (some (0, 0, 1), h)
    else
      find_pl_body_heap cb cb.find_d_sorted_discrete cb.find_d_sorted_discrete
        cb.brent_findmin_discrete (fun x v => cb.find_nearest_idx_discrete x v 1)
        (fun x v => cb.find_nearest_idx_discrete x v 0) h dId runs pqcrit pcrit
        pruns fuel calc_p
  else (some (0, 0, 1), h)

/-- Heap-level effects of `find_p_wrap` (source lines 27–43): in the
continuous case it allocates the sorted copy `np.sort(x)` and calls
`find_true_p` on it (which only reads); in the unimplemented discrete case it
returns the sentinel `-1` having touched nothing.  The heterogeneous Python
return (a pair, or the scalar `-1`) is a sum. -/
def find_p_wrap_heap (nearest : List α → α → ℕ) (brent : List α → α)
    (dfun : List α → α → α) (S : α → α)
    (plgen : ℕ → ℕ → α → α → α → List α)
    (h0 : Heap α) (xId : ℕ) (xmin xmax : α) (runs : ℕ) (discrete : Bool) :
    ((α × α) ⊕ ℤ) × Heap α :=
  if discrete = false then
    let s := halloc h0 (np_sort (hread h0 xId))
    (Sum.inl (find_true_p nearest brent dfun S plgen (hread s.2 s.1) xmin xmax runs),
      s.2)
  else (Sum.inr (-1), h0)

end Defs

section Lemmas

variable {α : Type} [LinearOrderedField α]

/-- A successful rejection loop exits with a pair for which the `while`
condition fails. -/
lemma genPair_eq_some {data : List α} :
    ∀ {fuel : ℕ} {props : ℕ → ℕ × ℕ} {p : ℕ × ℕ},
      genPair data props fuel = some p → ¬ loopCond data p.1 p.2 := by
  intro fuel
  induction fuel with
  | zero => intro props p h; simp [genPair] at h
  | succ n ih =>
    intro props p h
    rw [genPair] at h
    split at h
    · exact ih h
    · next hc =>
      cases h
      exact hc

/-- If every in-range index pair satisfies the `while` condition, the
rejection loop never exits, whatever the draws and however much fuel. -/
lemma genPair_eq_none {data : List α}
    (hall : ∀ i j, i < data.length → j < data.length → loopCond data i j) :
    ∀ (fuel : ℕ) (props : ℕ → ℕ × ℕ),
      (∀ k, (props k).1 < data.length ∧ (props k).2 < data.length) →
      genPair data props fuel = none := by
  intro fuel
  induction fuel with
  | zero => intro props _; rfl
  | succ n ih =>
    intro props hv
    rw [genPair]
    rw [if_pos (hall _ _ (hv 0).1 (hv 0).2)]
    exact ih _ fun k => hv (k + 1)

/-- Every trial of a successful sweep arises from a successful rejection loop
via `mkTrial`. -/
lemma sweepAux_mem {distfun dfun : List α → α → α} {brent : List α → α}
    {E S : α → α} {data : List α} {props : ℕ → ℕ → ℕ × ℕ} {fuel : ℕ} :
    ∀ {rem r : ℕ} {ts : List (Trial α)},
      sweepAux distfun dfun brent E S data props fuel r rem = some ts →
      ∀ t ∈ ts, ∃ r' p, genPair data (props r') fuel = some p ∧
        t = mkTrial distfun dfun brent E S data p := by
  intro rem
  induction rem with
  | zero =>
    intro r ts h t ht
    rw [sweepAux] at h
    cases h
    simp at ht
  | succ n ih =>
    intro r ts h t ht
    rw [sweepAux] at h
    cases hg : genPair data (props r) fuel with
    | none => rw [hg] at h; cases h
    | some p =>
      rw [hg] at h
      cases hs : sweepAux distfun dfun brent E S data props fuel (r + 1) n with
      | none => rw [hs] at h; cases h
      | some ts' =>
        rw [hs] at h
        cases h
        rcases List.mem_cons.mp ht with rfl | htl
        · exact ⟨r, p, hg, rfl⟩
        · exact ih hs t htl

/-- Closed form of the `expfun` accumulation loop as the alternating series
`2 * sum_(i=1..numterms) (-1)^(i-1) * E(-2*i^2*x^2)`. -/
lemma expfun_eq_sum (E : α → α) (x : α) :
    ∀ n : ℕ, expfun E x n =
      2 * ∑ i in Finset.Icc 1 n, (-1 : α) ^ (i - 1) * E (-2 * (i : α) ^ (2 : ℕ) * x ^ (2 : ℕ)) := by
  intro n
  induction n with
  | zero => simp [expfun]
  | succ m ih =>
    rw [expfun, List.range_succ, List.foldl_append, List.foldl_cons, List.foldl_nil]
    rw [expfun] at ih
    rw [Finset.sum_Icc_succ_top (Nat.one_le_iff_ne_zero.mpr (Nat.succ_ne_zero m)),
      mul_add, mul_add, ← ih, Nat.add_sub_cancel]
    push_cast
    ring

end Lemmas

section Claims

variable {α : Type} [LinearOrderedField α]

/-- Claim C2: for every recorded trial in every batch produced by the
trial-generation loop (on any dataset and draw stream for which every
rejection loop terminates), the snapped pair satisfies
`xmax_idx - xmin_idx >= 10` and `xmax >= 2*xmin`, where the recorded `xmin`
and `xmax` are the data values at the snapped indices. -/
theorem c2_trial_invariants (distfun dfun : List α → α → α) (brent : List α → α)
    (E S : α → α) (data : List α) (props : ℕ → ℕ → ℕ × ℕ) (fuel runs : ℕ)
    (batch : List (Trial α)) (t : Trial α)
    (hb : sweep distfun dfun brent E S data props fuel runs = some batch)
    (ht : t ∈ batch) :
    t.xmin_idx + 10 ≤ t.xmax_idx ∧
    2 * data.getD t.xmin_idx 0 ≤ data.getD t.xmax_idx 0 ∧
    t.xmin = data.getD t.xmin_idx 0 ∧ t.xmax = data.getD t.xmax_idx 0 := by
  obtain ⟨r, p, hg, rfl⟩ := sweepAux_mem hb t ht
  have hc := genPair_eq_some hg
  rw [loopCond] at hc
  push_neg at hc
  refine ⟨hc.1, hc.2, rfl, rfl⟩

/-- Concrete fixtures for witnesses: a 12-point dataset and trivial
collaborator functions over ℚ. -/
def qd : List ℚ := [1, 2, 3, 4, 5, 6, 7, 8, 9, 10, 11, 12]

/-- Trivial two-argument collaborator over ℚ (distance functions). -/
def qf2 : List ℚ → ℚ → ℚ := fun _ _ => 0

/-- Trivial fitter over ℚ returning exponent 2. -/
def qf1 : List ℚ → ℚ := fun _ => 2

/-- Trivial unary numeric collaborator over ℚ. -/
def qf0 : ℚ → ℚ := fun _ => 0

/-- Witness for C2 at a concrete dataset, draw stream and fuel. -/
theorem c2_trial_invariants_witness :
    sweep qf2 qf2 qf1 qf0 qf0 qd (fun _ _ => (0, 11)) 1 1 =
      some [mkTrial qf2 qf2 qf1 qf0 qf0 qd (0, 11)] ∧
    ((mkTrial qf2 qf2 qf1 qf0 qf0 qd (0, 11)).xmin_idx + 10 ≤
        (mkTrial qf2 qf2 qf1 qf0 qf0 qd (0, 11)).xmax_idx ∧
      2 * qd.getD (mkTrial qf2 qf2 qf1 qf0 qf0 qd (0, 11)).xmin_idx 0 ≤
        qd.getD (mkTrial qf2 qf2 qf1 qf0 qf0 qd (0, 11)).xmax_idx 0 ∧
      (mkTrial qf2 qf2 qf1 qf0 qf0 qd (0, 11)).xmin =
        qd.getD (mkTrial qf2 qf2 qf1 qf0 qf0 qd (0, 11)).xmin_idx 0 ∧
      (mkTrial qf2 qf2 qf1 qf0 qf0 qd (0, 11)).xmax =
        qd.getD (mkTrial qf2 qf2 qf1 qf0 qf0 qd (0, 11)).xmax_idx 0) :=
  ⟨by simp [sweep, sweepAux, genPair, loopCond, qd]; norm_num,
    c2_trial_invariants qf2 qf2 qf1 qf0 qf0 qd (fun _ _ => (0, 11)) 1 1 _ _
      (by simp [sweep, sweepAux, genPair, loopCond, qd]; norm_num)
      (List.mem_singleton.mpr rfl)⟩

/-- Claim C6: for every recorded trial, writing d for the trial's `tmpd`
value and n for the trimmed sample size, the recorded approximate p-value
equals `expfun(z + 0.17/sqrt(n) + (z-1)/(4*n))` with `z = d*sqrt(n)`, where
`expfun(x, numterms=10)` is the alternating series
`2 * sum_(i=1..numterms) (-1)^(i-1) * exp(-2*i^2*x^2)`. -/
theorem c6_pq_formula (distfun dfun : List α → α → α) (brent : List α → α)
    (E S : α → α) (data : List α) (props : ℕ → ℕ → ℕ × ℕ) (fuel runs : ℕ)
    (batch : List (Trial α)) (t : Trial α)
    (hb : sweep distfun dfun brent E S data props fuel runs = some batch)
    (ht : t ∈ batch) :
    t.n = ((data.drop t.xmin_idx).take (t.xmax_idx + 1 - t.xmin_idx)).length ∧
    t.pq = expfun E (t.tmpd * S (t.n : α) + (17 / 100) / S (t.n : α) +
      (t.tmpd * S (t.n : α) - 1) / (4 * (t.n : α))) 10 ∧
    (∀ (x : α) (numterms : ℕ), expfun E x numterms =
      2 * ∑ i in Finset.Icc 1 numterms,
        (-1 : α) ^ (i - 1) * E (-2 * (i : α) ^ (2 : ℕ) * x ^ (2 : ℕ))) := by
  obtain ⟨r, p, hg, rfl⟩ := sweepAux_mem hb t ht
  exact ⟨rfl, rfl, fun x numterms => expfun_eq_sum E x numterms⟩

/-- Witness for C6 at a concrete dataset, draw stream and fuel. -/
theorem c6_pq_formula_witness :
    sweep qf2 qf2 qf1 qf0 qf0 qd (fun _ _ => (0, 11)) 1 1 =
      some [mkTrial qf2 qf2 qf1 qf0 qf0 qd (0, 11)] ∧
    ((mkTrial qf2 qf2 qf1 qf0 qf0 qd (0, 11)).n =
        ((qd.drop (mkTrial qf2 qf2 qf1 qf0 qf0 qd (0, 11)).xmin_idx).take
          ((mkTrial qf2 qf2 qf1 qf0 qf0 qd (0, 11)).xmax_idx + 1 -
            (mkTrial qf2 qf2 qf1 qf0 qf0 qd (0, 11)).xmin_idx)).length ∧
      (mkTrial qf2 qf2 qf1 qf0 qf0 qd (0, 11)).pq =
        expfun qf0 ((mkTrial qf2 qf2 qf1 qf0 qf0 qd (0, 11)).tmpd *
            qf0 ((mkTrial qf2 qf2 qf1 qf0 qf0 qd (0, 11)).n : ℚ) +
          (17 / 100) / qf0 ((mkTrial qf2 qf2 qf1 qf0 qf0 qd (0, 11)).n : ℚ) +
          ((mkTrial qf2 qf2 qf1 qf0 qf0 qd (0, 11)).tmpd *
              qf0 ((mkTrial qf2 qf2 qf1 qf0 qf0 qd (0, 11)).n : ℚ) - 1) /
            (4 * ((mkTrial qf2 qf2 qf1 qf0 qf0 qd (0, 11)).n : ℚ))) 10 ∧
      (∀ (x : ℚ) (numterms : ℕ), expfun qf0 x numterms =
        2 * ∑ i in Finset.Icc 1 numterms,
          (-1 : ℚ) ^ (i - 1) * qf0 (-2 * (i : ℚ) ^ (2 : ℕ) * x ^ (2 : ℕ)))) :=
  ⟨by simp [sweep, sweepAux, genPair, loopCond, qd]; norm_num,
    c6_pq_formula qf2 qf2 qf1 qf0 qf0 qd (fun _ _ => (0, 11)) 1 1 _ _
      (by simp [sweep, sweepAux, genPair, loopCond, qd]; norm_num)
      (List.mem_singleton.mpr rfl)⟩

/-- Claim C7: for every recorded trial, when the fitted alpha is `<= 1` the
recorded distance keeps the sentinel `1e12` and the `tmpd` value used for the
approximate p-value keeps its prior default `1`; when `alpha > 1` the distance
is `distfun(trimmed, alpha)` and `tmpd` is `dfun(trimmed, alpha)`. -/
theorem c7_sentinel_asymmetry (distfun dfun : List α → α → α) (brent : List α → α)
    (E S : α → α) (data : List α) (props : ℕ → ℕ → ℕ × ℕ) (fuel runs : ℕ)
    (batch : List (Trial α)) (t : Trial α)
    (hb : sweep distfun dfun brent E S data props fuel runs = some batch)
    (ht : t ∈ batch) :
    t.alpha = brent ((data.drop t.xmin_idx).take (t.xmax_idx + 1 - t.xmin_idx)) ∧
    (t.alpha ≤ 1 → t.d = 10 ^ (12 : ℕ) ∧ t.tmpd = 1) ∧
    (1 < t.alpha →
      t.d = distfun ((data.drop t.xmin_idx).take (t.xmax_idx + 1 - t.xmin_idx)) t.alpha ∧
      t.tmpd = dfun ((data.drop t.xmin_idx).take (t.xmax_idx + 1 - t.xmin_idx)) t.alpha) := by
  obtain ⟨r, p, hg, rfl⟩ := sweepAux_mem hb t ht
  refine ⟨rfl, fun h => ?_, fun h => ?_⟩
  · simp only [mkTrial] at h ⊢
    rw [if_neg (not_lt.mpr h), if_neg (not_lt.mpr h)]
    exact ⟨rfl, rfl⟩
  · simp only [mkTrial] at h ⊢
    rw [if_pos h, if_pos h]
    exact ⟨rfl, rfl⟩

/-- Witness for C7 at a concrete dataset, draw stream and fuel (the trivial
fitter returns alpha 2 > 1, exercising the second branch; the first branch is
vacuous there). -/
theorem c7_sentinel_asymmetry_witness :
    sweep qf2 qf2 qf1 qf0 qf0 qd (fun _ _ => (0, 11)) 1 1 =
      some [mkTrial qf2 qf2 qf1 qf0 qf0 qd (0, 11)] ∧
    ((mkTrial qf2 qf2 qf1 qf0 qf0 qd (0, 11)).alpha =
        qf1 ((qd.drop (mkTrial qf2 qf2 qf1 qf0 qf0 qd (0, 11)).xmin_idx).take
          ((mkTrial qf2 qf2 qf1 qf0 qf0 qd (0, 11)).xmax_idx + 1 -
            (mkTrial qf2 qf2 qf1 qf0 qf0 qd (0, 11)).xmin_idx)) ∧
      ((mkTrial qf2 qf2 qf1 qf0 qf0 qd (0, 11)).alpha ≤ 1 →
        (mkTrial qf2 qf2 qf1 qf0 qf0 qd (0, 11)).d = 10 ^ (12 : ℕ) ∧
        (mkTrial qf2 qf2 qf1 qf0 qf0 qd (0, 11)).tmpd = 1) ∧
      (1 < (mkTrial qf2 qf2 qf1 qf0 qf0 qd (0, 11)).alpha →
        (mkTrial qf2 qf2 qf1 qf0 qf0 qd (0, 11)).d =
          qf2 ((qd.drop (mkTrial qf2 qf2 qf1 qf0 qf0 qd (0, 11)).xmin_idx).take
            ((mkTrial qf2 qf2 qf1 qf0 qf0 qd (0, 11)).xmax_idx + 1 -
              (mkTrial qf2 qf2 qf1 qf0 qf0 qd (0, 11)).xmin_idx))
            (mkTrial qf2 qf2 qf1 qf0 qf0 qd (0, 11)).alpha ∧
        (mkTrial qf2 qf2 qf1 qf0 qf0 qd (0, 11)).tmpd =
          qf2 ((qd.drop (mkTrial qf2 qf2 qf1 qf0 qf0 qd (0, 11)).xmin_idx).take
            ((mkTrial qf2 qf2 qf1 qf0 qf0 qd (0, 11)).xmax_idx + 1 -
              (mkTrial qf2 qf2 qf1 qf0 qf0 qd (0, 11)).xmin_idx))
            (mkTrial qf2 qf2 qf1 qf0 qf0 qd (0, 11)).alpha)) :=
  ⟨by simp [sweep, sweepAux, genPair, loopCond, qd]; norm_num,
    c7_sentinel_asymmetry qf2 qf2 qf1 qf0 qf0 qd (fun _ _ => (0, 11)) 1 1 _ _
      (by simp [sweep, sweepAux, genPair, loopCond, qd]; norm_num)
      (List.mem_singleton.mpr rfl)⟩

/-- Every in-range pair of a dataset with at most 10 points satisfies the
`while` condition (an index gap of 10 is impossible), regardless of the
values. -/
lemma loopCond_of_short (data : List α) (hlen : data.length ≤ 10) (i j : ℕ)
    (hj : j < data.length) : loopCond data i j :=
  Or.inl (lt_of_lt_of_le hj (le_trans hlen (Nat.le_add_left 10 i)))

/-- Entries of a sorted list are monotone in the index (stated with
out-of-range default 0, for in-range indices). -/
lemma sorted_getD_le (data : List α) (hs : List.Sorted (· ≤ ·) data) {i j : ℕ}
    (hij : i ≤ j) (hj : j < data.length) : data.getD i 0 ≤ data.getD j 0 := by
  have hi : i < data.length := lt_of_le_of_lt hij hj
  rw [List.getD_eq_getElem data 0 hi, List.getD_eq_getElem data 0 hj]
  rcases lt_or_eq_of_le hij with hlt | rfl
  · have := (List.pairwise_iff_get.mp hs) ⟨i, hi⟩ ⟨j, hj⟩ (by simpa [Fin.mk_lt_mk] using hlt)
    simpa [List.get_eq_getElem] using this
  · exact le_refl _

/-- A sorted dataset of exactly 10 points with range ratio 10. -/
def qd10 : List ℚ := [1, 2, 3, 4, 5, 6, 7, 8, 9, 10]

/-- Claim C3 counterexample: the claim asserts that any dataset with at
least 10 points and max/min ratio at least 2 guarantees termination of the
rejection loop.  `qd10` has exactly 10 points, is sorted, and has ratio 10,
yet the loop can never exit: no matter the draw stream (whose snapped
indices are always in range, by the nearest-index contract) and no matter
how many iterations are allowed, the loop produces no pair, because an
index gap of 10 is impossible among 10 points. -/
theorem c3_counterexample :
    qd10.length = 10 ∧ List.Sorted (· ≤ ·) qd10 ∧
    2 * qd10.getD 0 0 ≤ qd10.getD (qd10.length - 1) 0 ∧
    (∀ (fuel : ℕ) (props : ℕ → ℕ × ℕ),
      (∀ k, (props k).1 < qd10.length ∧ (props k).2 < qd10.length) →
      genPair qd10 props fuel = none) := by
  refine ⟨rfl, ?_, by norm_num [qd10], ?_⟩
  · norm_num [qd10, List.sorted_cons]
  · intro fuel props hv
    exact genPair_eq_none
      (fun i j _ hj => loopCond_of_short qd10 (by norm_num [qd10]) i j hj)
      fuel props hv

/-- Claim C3 amended: the guarantee needs at least 11 points (so that an
index gap of 10 is possible).  For sorted data: (a) with at least 11 points
and max at least twice min, the full-range snapped pair `(0, n-1)` passes the
exit test, so any draw stream that proposes it makes the loop exit —
termination is guaranteed exactly on streams that eventually propose a
passing pair; (b) with at most 10 points, or max less than twice min, no
in-range pair passes the test, and the loop never terminates on any stream
of in-range snapped draws. -/
theorem c3_amended (data : List α) (hs : List.Sorted (· ≤ ·) data) :
    (11 ≤ data.length → 2 * data.getD 0 0 ≤ data.getD (data.length - 1) 0 →
      ∀ props : ℕ → ℕ × ℕ, props 0 = (0, data.length - 1) →
        ∀ fuel, 1 ≤ fuel → genPair data props fuel = some (0, data.length - 1)) ∧
    ((data.length ≤ 10 ∨ data.getD (data.length - 1) 0 < 2 * data.getD 0 0) →
      ∀ (fuel : ℕ) (props : ℕ → ℕ × ℕ),
        (∀ k, (props k).1 < data.length ∧ (props k).2 < data.length) →
        genPair data props fuel = none) := by
  constructor
  · intro hlen hratio props hp fuel hfuel
    cases fuel with
    | zero => omega
    | succ f =>
      rw [genPair]
      have hnot : ¬ loopCond data (props 0).1 (props 0).2 := by
        rw [hp, loopCond]
        push_neg
        exact ⟨by omega, hratio⟩
      rw [if_neg hnot, hp]
  · intro hbad fuel props hv
    refine genPair_eq_none (fun i j hi hj => ?_) fuel props hv
    rcases hbad with hshort | hratio
    · exact loopCond_of_short data hshort i j hj
    · refine Or.inr (lt_of_le_of_lt (sorted_getD_le data hs (by omega) (by omega))
        (lt_of_lt_of_le hratio ?_))
      have h0i : data.getD 0 0 ≤ data.getD i 0 :=
        sorted_getD_le data hs (Nat.zero_le i) hi
      linarith

/-- Sortedness of the witness dataset. -/
lemma qd_sorted : List.Sorted (· ≤ ·) qd := by
  norm_num [qd, List.sorted_cons]

/-- Witness for the amended C3 at the concrete sorted 12-point dataset. -/
theorem c3_amended_witness :
    List.Sorted (· ≤ ·) qd ∧
    ((11 ≤ qd.length → 2 * qd.getD 0 0 ≤ qd.getD (qd.length - 1) 0 →
      ∀ props : ℕ → ℕ × ℕ, props 0 = (0, qd.length - 1) →
        ∀ fuel, 1 ≤ fuel → genPair qd props fuel = some (0, qd.length - 1)) ∧
    ((qd.length ≤ 10 ∨ qd.getD (qd.length - 1) 0 < 2 * qd.getD 0 0) →
      ∀ (fuel : ℕ) (props : ℕ → ℕ × ℕ),
        (∀ k, (props k).1 < qd.length ∧ (props k).2 < qd.length) →
        genPair qd props fuel = none)) :=
  ⟨qd_sorted, c3_amended qd qd_sorted⟩

/-- Bounds for a binomial proportion and its standard error: with
`p = tot/runs`, `tot <= runs` and `runs >= 1`, both `p` and
`sqrt(p*(1-p)/runs)` lie in `[0, 1]`. -/
lemma binom_bounds (tot runs : ℕ) (h : 1 ≤ runs) (htot : tot ≤ runs) :
    0 ≤ (tot : ℝ) / (runs : ℝ) ∧ (tot : ℝ) / (runs : ℝ) ≤ 1 ∧
    0 ≤ Real.sqrt ((tot : ℝ) / (runs : ℝ) * (1 - (tot : ℝ) / (runs : ℝ)) / (runs : ℝ)) ∧
    Real.sqrt ((tot : ℝ) / (runs : ℝ) * (1 - (tot : ℝ) / (runs : ℝ)) / (runs : ℝ)) ≤ 1 := by
  have hr : (0 : ℝ) < (runs : ℝ) := by exact_mod_cast Nat.lt_of_lt_of_le Nat.zero_lt_one h
  have hr1 : (1 : ℝ) ≤ (runs : ℝ) := by exact_mod_cast h
  have htotr : (tot : ℝ) ≤ (runs : ℝ) := by exact_mod_cast htot
  have hp0 : 0 ≤ (tot : ℝ) / (runs : ℝ) := div_nonneg (Nat.cast_nonneg tot) (le_of_lt hr)
  have hp1 : (tot : ℝ) / (runs : ℝ) ≤ 1 := (div_le_one hr).mpr htotr
  refine ⟨hp0, hp1, Real.sqrt_nonneg _, Real.sqrt_le_one.mpr ?_⟩
  have hnum : (tot : ℝ) / (runs : ℝ) * (1 - (tot : ℝ) / (runs : ℝ)) ≤ 1 := by nlinarith
  have hnn : 0 ≤ (tot : ℝ) / (runs : ℝ) * (1 - (tot : ℝ) / (runs : ℝ)) := by nlinarith
  calc (tot : ℝ) / (runs : ℝ) * (1 - (tot : ℝ) / (runs : ℝ)) / (runs : ℝ)
      ≤ (tot : ℝ) / (runs : ℝ) * (1 - (tot : ℝ) / (runs : ℝ)) := div_le_self hnn hr1
    _ ≤ 1 := hnum

/-- Claim C5: for every input and every `runs >= 1`, `find_true_p` returns
`p` equal to the number of synthetic iterations with `ds >= de` divided by
`runs`, and `sigma_p` equal to `sqrt(p*(1-p)/runs)` exactly; consequently
`0 <= p <= 1` and `0 <= sigma_p <= 1`.  (Stated at ℝ with `np.sqrt` the real
square root; the collaborators and the synthetic-sample stream are
universally quantified.) -/
theorem c5_find_true_p (nearest : List ℝ → ℝ → ℕ) (brent : List ℝ → ℝ)
    (dfun : List ℝ → ℝ → ℝ) (plgen : ℕ → ℕ → ℝ → ℝ → ℝ → List ℝ)
    (x : List ℝ) (xmin xmax : ℝ) (runs : ℕ) (h : 1 ≤ runs) :
    (find_true_p nearest brent dfun Real.sqrt plgen x xmin xmax runs).1 =
      (((List.range runs).countP fun k =>
        let x2 := (x.drop (nearest x xmin)).take (nearest x xmax + 1 - nearest x xmin)
        let synth := np_sort (plgen k x2.length xmin xmax (brent x2))
        decide (dfun x2 (brent x2) ≤ dfun synth (brent synth))) : ℝ) / (runs : ℝ) ∧
    (find_true_p nearest brent dfun Real.sqrt plgen x xmin xmax runs).2 =
      Real.sqrt ((find_true_p nearest brent dfun Real.sqrt plgen x xmin xmax runs).1 *
        (1 - (find_true_p nearest brent dfun Real.sqrt plgen x xmin xmax runs).1) /
        (runs : ℝ)) ∧
    0 ≤ (find_true_p nearest brent dfun Real.sqrt plgen x xmin xmax runs).1 ∧
    (find_true_p nearest brent dfun Real.sqrt plgen x xmin xmax runs).1 ≤ 1 ∧
    0 ≤ (find_true_p nearest brent dfun Real.sqrt plgen x xmin xmax runs).2 ∧
    (find_true_p nearest brent dfun Real.sqrt plgen x xmin xmax runs).2 ≤ 1 := by
  have hcount : ((List.range runs).countP fun k =>
      let x2 := (x.drop (nearest x xmin)).take (nearest x xmax + 1 - nearest x xmin)
      let synth := np_sort (plgen k x2.length xmin xmax (brent x2))
      decide (dfun x2 (brent x2) ≤ dfun synth (brent synth))) ≤ runs := by
    refine le_trans (List.countP_le_length _) ?_
    simp
  obtain ⟨h1, h2, h3, h4⟩ := binom_bounds _ runs h hcount
  exact ⟨rfl, rfl, h1, h2, h3, h4⟩

/-- Witness for C5 at a concrete input with `runs = 1` and trivial
collaborators. -/
theorem c5_find_true_p_witness :
    1 ≤ 1 ∧
    ((find_true_p (fun _ _ => 0) (fun _ => 0) (fun _ _ => 0) Real.sqrt
        (fun _ _ _ _ _ => []) [] 0 0 1).1 =
      (((List.range 1).countP fun k =>
        let x2 := (([] : List ℝ).drop ((fun (_ : List ℝ) (_ : ℝ) => 0) [] 0)).take
          ((fun (_ : List ℝ) (_ : ℝ) => 0) [] (0 : ℝ) + 1 - (fun (_ : List ℝ) (_ : ℝ) => 0) [] (0 : ℝ))
        let synth := np_sort ((fun (_ : ℕ) (_ : ℕ) (_ : ℝ) (_ : ℝ) (_ : ℝ) => ([] : List ℝ)) k
          x2.length 0 0 ((fun (_ : List ℝ) => (0 : ℝ)) x2))
        decide ((fun (_ : List ℝ) (_ : ℝ) => (0 : ℝ)) x2 ((fun (_ : List ℝ) => (0 : ℝ)) x2) ≤
          (fun (_ : List ℝ) (_ : ℝ) => (0 : ℝ)) synth ((fun (_ : List ℝ) => (0 : ℝ)) synth))) : ℝ) /
        ((1 : ℕ) : ℝ) ∧
    (find_true_p (fun _ _ => 0) (fun _ => 0) (fun _ _ => 0) Real.sqrt
        (fun _ _ _ _ _ => []) [] 0 0 1).2 =
      Real.sqrt ((find_true_p (fun _ _ => 0) (fun _ => 0) (fun _ _ => 0) Real.sqrt
          (fun _ _ _ _ _ => []) [] 0 0 1).1 *
        (1 - (find_true_p (fun _ _ => 0) (fun _ => 0) (fun _ _ => 0) Real.sqrt
          (fun _ _ _ _ _ => []) [] 0 0 1).1) / ((1 : ℕ) : ℝ)) ∧
    0 ≤ (find_true_p (fun _ _ => 0) (fun _ => 0) (fun _ _ => 0) Real.sqrt
        (fun _ _ _ _ _ => []) [] 0 0 1).1 ∧
    (find_true_p (fun _ _ => 0) (fun _ => 0) (fun _ _ => 0) Real.sqrt
        (fun _ _ _ _ _ => []) [] 0 0 1).1 ≤ 1 ∧
    0 ≤ (find_true_p (fun _ _ => 0) (fun _ => 0) (fun _ _ => 0) Real.sqrt
        (fun _ _ _ _ _ => []) [] 0 0 1).2 ∧
    (find_true_p (fun _ _ => 0) (fun _ => 0) (fun _ _ => 0) Real.sqrt
        (fun _ _ _ _ _ => []) [] 0 0 1).2 ≤ 1) :=
  ⟨le_refl 1, c5_find_true_p (fun _ _ => 0) (fun _ => 0) (fun _ _ => 0)
    (fun _ _ _ _ _ => []) [] 0 0 1 (le_refl 1)⟩

/-- Evaluation of the 10-term `expfun` at the real exponential: the explicit
alternating sum of Gaussians. -/
lemma expfunR_eval (x : ℝ) : expfunR x =
    2 * (Real.exp (-2 * x ^ 2) - Real.exp (-8 * x ^ 2) + Real.exp (-18 * x ^ 2)
      - Real.exp (-32 * x ^ 2) + Real.exp (-50 * x ^ 2) - Real.exp (-72 * x ^ 2)
      + Real.exp (-98 * x ^ 2) - Real.exp (-128 * x ^ 2) + Real.exp (-162 * x ^ 2)
      - Real.exp (-200 * x ^ 2)) := by
  rw [expfunR, expfun, show List.range 10 = [0,1,2,3,4,5,6,7,8,9] from rfl]
  simp only [List.foldl_cons, List.foldl_nil]
  norm_num
  ring_nf

/-- Strict monotonicity of the real exponential, in the form used below. -/
lemma exp_lt_exp_of_lt {a b : ℝ} (h : a < b) : Real.exp a < Real.exp b :=
  Real.exp_lt_exp.mpr h

/-- The truncated series vanishes at 0 (each of the ten terms is
`exp 0 = 1` and the signs alternate). -/
lemma expfunR_zero : expfunR 0 = 0 := by
  rw [expfunR_eval]
  norm_num

/-- The truncated series is strictly positive at 3. -/
lemma expfunR_three_pos : 0 < expfunR 3 := by
  rw [expfunR_eval]
  norm_num
  nlinarith [exp_lt_exp_of_lt (show (-72:ℝ) < -18 by norm_num),
    exp_lt_exp_of_lt (show (-288:ℝ) < -162 by norm_num),
    exp_lt_exp_of_lt (show (-648:ℝ) < -450 by norm_num),
    exp_lt_exp_of_lt (show (-1152:ℝ) < -882 by norm_num),
    exp_lt_exp_of_lt (show (-1800:ℝ) < -1458 by norm_num)]

/-- A crude exponential lower bound: `exp 18 > 2^18`. -/
lemma exp_18_big : (262144 : ℝ) < Real.exp 18 := by
  have h1 : Real.exp ((18 : ℕ) * (1 : ℝ)) = Real.exp 1 ^ (18 : ℕ) := Real.exp_nat_mul 1 18
  have h2 : (2 : ℝ) < Real.exp 1 := lt_trans (by norm_num) Real.exp_one_gt_d9
  have h3 : (2 : ℝ) ^ (18 : ℕ) < Real.exp 1 ^ (18 : ℕ) :=
    pow_lt_pow_left₀ h2 (by norm_num) (by norm_num)
  have h4 : Real.exp 18 = Real.exp 1 ^ (18 : ℕ) := by rw [← h1]; norm_num
  rw [h4]
  calc (262144 : ℝ) = 2 ^ (18 : ℕ) := by norm_num
    _ < _ := h3

/-- The truncated series is below `1/1000` at 3 (it is dominated by
`2*exp(-18)`). -/
lemma expfunR_three_lt : expfunR 3 < 1 / 1000 := by
  rw [expfunR_eval]
  norm_num
  have hb : Real.exp (-18) < 1 / 262144 := by
    rw [Real.exp_neg]
    rw [inv_lt_comm₀ (Real.exp_pos 18) (by norm_num)]
    calc (1 / 262144 : ℝ)⁻¹ = 262144 := by norm_num
      _ < Real.exp 18 := exp_18_big
  nlinarith [exp_lt_exp_of_lt (show (-162:ℝ) < -72 by norm_num),
    exp_lt_exp_of_lt (show (-450:ℝ) < -288 by norm_num),
    exp_lt_exp_of_lt (show (-882:ℝ) < -648 by norm_num),
    exp_lt_exp_of_lt (show (-1458:ℝ) < -1152 by norm_num),
    Real.exp_pos (-1800), Real.exp_pos (-18)]

/-- Upper bound `exp(-1/2) < 2/3` (from `exp(1/2) > 3/2`). -/
lemma exp_half_lt : Real.exp (-(1/2) : ℝ) < 2/3 := by
  have h : (3/2 : ℝ) < Real.exp (1/2) := by
    have := Real.add_one_lt_exp (show (1/2 : ℝ) ≠ 0 by norm_num)
    linarith
  have hpos : (0 : ℝ) < Real.exp (1/2) := Real.exp_pos _
  rw [Real.exp_neg]
  rw [inv_lt_comm₀ hpos (by norm_num)]
  calc ((2:ℝ)/3)⁻¹ = 3/2 := by norm_num
    _ < Real.exp (1/2) := h

/-- Power identities `exp(-2) = exp(-1/2)^4` and `exp(-8) = exp(-1/2)^16`. -/
lemma exp_pows : Real.exp (-2 : ℝ) = Real.exp (-(1/2) : ℝ) ^ (4 : ℕ) ∧
    Real.exp (-8 : ℝ) = Real.exp (-(1/2) : ℝ) ^ (16 : ℕ) := by
  constructor
  · have h := Real.exp_nat_mul (-(1/2) : ℝ) 4
    rw [← h]; norm_num
  · have h := Real.exp_nat_mul (-(1/2) : ℝ) 16
    rw [← h]; norm_num

/-- The leading gap of the series at `x = 1/2` dominates the whole series at
`x = 2`:  `exp(-8) < exp(-1/2) - exp(-2)`. -/
lemma key_gap : Real.exp (-8 : ℝ) < Real.exp (-(1/2) : ℝ) - Real.exp (-2 : ℝ) := by
  obtain ⟨h4, h16⟩ := exp_pows
  set u := Real.exp (-(1/2) : ℝ) with hu
  have hu0 : 0 < u := Real.exp_pos _
  have hu23 : u < 2/3 := exp_half_lt
  rw [h4, h16]
  have h3 : u ^ (3:ℕ) < (2/3 : ℝ)^(3:ℕ) := pow_lt_pow_left₀ hu23 (le_of_lt hu0) (by norm_num)
  have h15 : u ^ (15:ℕ) < (2/3 : ℝ)^(15:ℕ) := pow_lt_pow_left₀ hu23 (le_of_lt hu0) (by norm_num)
  have e4 : u ^ (4:ℕ) = u * u^(3:ℕ) := by ring
  have e16 : u ^ (16:ℕ) = u * u^(15:ℕ) := by ring
  rw [e4, e16]
  nlinarith [pow_pos hu0 3, pow_pos hu0 15]

/-- The truncated series is strictly smaller at 2 than at 1/2: it is not
monotone increasing on `[0, 2]`. -/
lemma expfunR_two_lt_half : expfunR 2 < expfunR (1/2) := by
  rw [expfunR_eval, expfunR_eval]
  norm_num
  have hgap := key_gap
  nlinarith [exp_lt_exp_of_lt (show (-72:ℝ) < -32 by norm_num),
    exp_lt_exp_of_lt (show (-200:ℝ) < -128 by norm_num),
    exp_lt_exp_of_lt (show (-392:ℝ) < -288 by norm_num),
    exp_lt_exp_of_lt (show (-648:ℝ) < -512 by norm_num),
    Real.exp_pos (-800),
    exp_lt_exp_of_lt (show (-8:ℝ) < -9/2 by norm_num),
    exp_lt_exp_of_lt (show (-18:ℝ) < -25/2 by norm_num),
    exp_lt_exp_of_lt (show (-32:ℝ) < -49/2 by norm_num),
    exp_lt_exp_of_lt (show (-50:ℝ) < -81/2 by norm_num)]

/-- The truncated series is strictly positive at 1/2. -/
lemma expfunR_half_pos : 0 < expfunR (1/2) := by
  rw [expfunR_eval]
  norm_num
  nlinarith [exp_lt_exp_of_lt (show (-2:ℝ) < -1/2 by norm_num),
    exp_lt_exp_of_lt (show (-8:ℝ) < -9/2 by norm_num),
    exp_lt_exp_of_lt (show (-18:ℝ) < -25/2 by norm_num),
    exp_lt_exp_of_lt (show (-32:ℝ) < -49/2 by norm_num),
    exp_lt_exp_of_lt (show (-50:ℝ) < -81/2 by norm_num)]

/-- Claim C8 counterexample: the claim asserts that `expfun` (with the
default 10 terms) is monotonically increasing on `[0, ~2]` and that
`expfun(3) > 0.999`.  Both fail: `1/2` and `2` both lie in `[0, 2]` yet
`expfun(2) < expfun(1/2)`, and `expfun(3) < 0.999`.  (`expfun` is the
Kolmogorov survival-function series: it rises from 0 only very near 0 and
then decreases toward 0.) -/
theorem c8_counterexample :
    (1/2 : ℝ) ≤ 2 ∧ expfunR 2 < expfunR (1/2) ∧ expfunR 3 < 999/1000 :=
  ⟨by norm_num, expfunR_two_lt_half,
    lt_trans expfunR_three_lt (by norm_num)⟩

/-- Claim C8 amended: `expfun(0) = 0` holds; but `expfun` is not monotone
increasing on `[0, 2]` — it is positive at `1/2` and strictly smaller at `2`
than at `1/2` — and for large arguments it approaches 0, not 1: at 3 it is
strictly between 0 and `0.001`. -/
theorem c8_amended :
    expfunR 0 = 0 ∧ 0 < expfunR (1/2) ∧ expfunR 2 < expfunR (1/2) ∧
    0 < expfunR 3 ∧ expfunR 3 < 1/1000 :=
  ⟨expfunR_zero, expfunR_half_pos, expfunR_two_lt_half,
    expfunR_three_pos, expfunR_three_lt⟩

/-- Claim C9: for every input, an invalid `dist_type` makes
`find_pl_montecarlo` return the sentinel `(0, 0, 1)` (no exception — the
embedding is a total function, and the printed message is outside the value
model); and `dist_type = 'discrete'` with any datum `< 1` returns the same
sentinel. -/
theorem c9_validation (cb : Collab α) (data0 : List α) (runs : ℕ)
    (pqcrit pcrit : α) (pruns : ℕ) (dist_type : String) (calc_p : Bool)
    (fuel : ℕ) :
    (dist_type ≠ "KS" → dist_type ≠ "AD" → dist_type ≠ "discrete" →
      find_pl_montecarlo cb data0 runs pqcrit pcrit pruns dist_type calc_p fuel =
        some (0, 0, 1)) ∧
    (dist_type = "discrete" → (∃ v ∈ data0, v < 1) →
      find_pl_montecarlo cb data0 runs pqcrit pcrit pruns dist_type calc_p fuel =
        some (0, 0, 1)) := by
  constructor
  · intro h1 h2 h3
    rw [find_pl_montecarlo, if_neg h1, if_neg h2, if_neg h3]
  · rintro rfl ⟨v, hv, hlt⟩
    rw [find_pl_montecarlo, if_neg (by decide), if_neg (by decide), if_pos rfl]
    have hmem : v ∈ np_sort data0 :=
      ((List.perm_insertionSort (· ≤ ·) data0).mem_iff).mpr hv
    rw [if_pos (List.any_eq_true.mpr ⟨v, hmem, decide_eq_true hlt⟩)]

/-- Trivial collaborator bundle over ℚ for witnesses. -/
def qcb : Collab ℚ :=
  ⟨qf2, qf2, qf2, qf1, qf1, fun _ _ => 0, fun _ _ _ => 0,
    fun _ _ n _ _ _ => List.replicate n 1, qf0, qf0, qf0, fun _ _ => (0, 0)⟩

/-- Witness for C9: an invalid distance type, and the discrete type with a
datum below 1, both at concrete inputs. -/
theorem c9_validation_witness :
    (("XYZ" : String) ≠ "KS" ∧ ("XYZ" : String) ≠ "AD" ∧ ("XYZ" : String) ≠ "discrete" ∧
      find_pl_montecarlo qcb qd 1 0 0 1 "XYZ" true 1 = some (0, 0, 1)) ∧
    ((∃ v ∈ [(1 : ℚ)/2], v < 1) ∧
      find_pl_montecarlo qcb [(1 : ℚ)/2] 1 0 0 1 "discrete" true 1 = some (0, 0, 1)) :=
  ⟨⟨by decide, by decide, by decide,
      (c9_validation qcb qd 1 0 0 1 "XYZ" true 1).1 (by decide) (by decide) (by decide)⟩,
    ⟨⟨1/2, List.mem_singleton.mpr rfl, by norm_num⟩,
      (c9_validation qcb [(1 : ℚ)/2] 1 0 0 1 "discrete" true 1).2 rfl
        ⟨1/2, List.mem_singleton.mpr rfl, by norm_num⟩⟩⟩

/-- Scan characterization of `npArgmax` restricted to the first `n`
positions: the running best index is in range, no scanned entry exceeds it,
and every strictly earlier entry is strictly smaller (numpy's
first-occurrence tie-break). -/
lemma npArgmax_fold_spec (a : List α) :
    ∀ n : ℕ, 1 ≤ n →
      (List.range n).foldl (fun b j => if a.getD b 0 < a.getD j 0 then j else b) 0 < n ∧
      (∀ j, j < n → a.getD j 0 ≤
        a.getD ((List.range n).foldl (fun b j => if a.getD b 0 < a.getD j 0 then j else b) 0) 0) ∧
      (∀ j, j < (List.range n).foldl (fun b j => if a.getD b 0 < a.getD j 0 then j else b) 0 →
        a.getD j 0 <
        a.getD ((List.range n).foldl (fun b j => if a.getD b 0 < a.getD j 0 then j else b) 0) 0) := by
  intro n
  induction n with
  | zero => intro h; omega
  | succ m ih =>
    intro _
    rcases Nat.eq_zero_or_pos m with rfl | hm
    · simp only [List.range_succ, List.range_zero, List.nil_append, List.foldl_cons,
        List.foldl_nil]
      rw [if_neg (lt_irrefl _)]
      refine ⟨Nat.zero_lt_one, ?_, ?_⟩
      · intro j hj
        have : j = 0 := by omega
        subst this
        exact le_refl _
      · intro j hj; omega
    · obtain ⟨h1, h2, h3⟩ := ih hm
      rw [List.range_succ, List.foldl_append, List.foldl_cons, List.foldl_nil]
      by_cases hcase :
          a.getD ((List.range m).foldl (fun b j => if a.getD b 0 < a.getD j 0 then j else b) 0) 0 <
            a.getD m 0
      · rw [if_pos hcase]
        refine ⟨Nat.lt_succ_self m, ?_, ?_⟩
        · intro j hj
          rcases Nat.lt_succ_iff_lt_or_eq.mp hj with hj' | rfl
          · exact le_of_lt (lt_of_le_of_lt (h2 j hj') hcase)
          · exact le_refl _
        · intro j hj
          exact lt_of_le_of_lt (h2 j hj) hcase
      · rw [if_neg hcase]
        refine ⟨lt_trans h1 (Nat.lt_succ_self m), ?_, h3⟩
        intro j hj
        rcases Nat.lt_succ_iff_lt_or_eq.mp hj with hj' | rfl
        · exact h2 j hj'
        · exact not_lt.mp hcase

/-- Characterization of `npArgmax` on a nonempty list: it is an in-range
index holding the maximum, and every earlier entry is strictly below it. -/
lemma npArgmax_spec (a : List α) (ha : a ≠ []) :
    npArgmax a < a.length ∧
    (∀ j, j < a.length → a.getD j 0 ≤ a.getD (npArgmax a) 0) ∧
    (∀ j, j < npArgmax a → a.getD j 0 < a.getD (npArgmax a) 0) :=
  npArgmax_fold_spec a a.length (List.length_pos.mpr ha)

/-- Fancy indexing preserves length. -/
lemma length_np_take (a : List α) (idxs : List ℕ) :
    (np_take a idxs).length = idxs.length := by
  simp [np_take]

/-- Entry of a fancy-indexed array. -/
lemma np_take_getD (a : List α) (idxs : List ℕ) {k : ℕ} (hk : k < idxs.length) :
    (np_take a idxs).getD k 0 = a.getD (idxs.getD k 0) 0 := by
  rw [np_take, List.getD_eq_getElem _ _ (by simpa using hk), List.getElem_map,
    List.getD_eq_getElem _ _ hk]

/-- Entries of `np.where(a > c)[0]` are in-range indices whose values
exceed the threshold. -/
lemma np_where_gt_getD (a : List α) (c : α) {k : ℕ}
    (hk : k < (np_where_gt a c).length) :
    (np_where_gt a c).getD k 0 < a.length ∧
    c < a.getD ((np_where_gt a c).getD k 0) 0 := by
  have hmem : (np_where_gt a c).getD k 0 ∈ np_where_gt a c := by
    rw [List.getD_eq_getElem _ _ hk]
    exact List.getElem_mem hk
  rw [np_where_gt] at hmem
  obtain ⟨h1, h2⟩ := List.mem_filter.mp hmem
  exact ⟨List.mem_range.mp h1, of_decide_eq_true h2⟩

/-- When every entry exceeds the threshold, `np.where(a > c)[0]` is the full
index range. -/
lemma np_where_gt_all (a : List α) (c : α)
    (h : ∀ k, k < a.length → c < a.getD k 0) :
    np_where_gt a c = List.range a.length := by
  rw [np_where_gt]
  apply List.filter_eq_self.mpr
  intro x hx
  exact decide_eq_true (h x (List.mem_range.mp hx))

/-- Entry of an elementwise combination. -/
lemma zipWith_getD (f : α → α → α) (xs ys : List α) {k : ℕ}
    (h1 : k < xs.length) (h2 : k < ys.length) :
    (List.zipWith f xs ys).getD k 0 = f (xs.getD k 0) (ys.getD k 0) := by
  rw [List.getD_eq_getElem _ _ (by rw [List.length_zipWith]; omega),
    List.getElem_zipWith, List.getD_eq_getElem _ _ h1, List.getD_eq_getElem _ _ h2]

/-- Claim C1: whenever the set of candidates surviving the final p-filter is
non-empty, `find_pl_montecarlo`'s selection phase returns the surviving
candidate that maximizes `xmax/xmin`, with ties broken by the first-occurring
index in scan order; and when `calc_p` is false the surviving set is exactly
the set of trials with `approx_p > pqcrit` (so the result is the
argmax-of-`xmax/xmin` over those trials, with `pqcrit` serving as `pcrit`).
The batch arrays are the `attempted_*` arrays; `idxs`, `ps`, `idxs2` name the
approximate-filter survivors, the `possible_ps` array and the true-filter
survivors; `k` indexes `idxs2` in scan order and `idxs.getD (idxs2.getD k 0) 0`
is the original trial index of the k-th final survivor. -/
theorem c1_selection (axmins axmaxs aalphas apqs : List α) (pqcrit pcrit : α)
    (calc_p : Bool) (fpc : List α → List α → List α)
    (hfpc : ∀ u v : List α, (fpc u v).length = u.length)
    (idxs : List ℕ) (hidxs : idxs = np_where_gt apqs pqcrit)
    (ps : List α) (hps : ps = if calc_p then
      fpc (np_take axmins idxs) (np_take axmaxs idxs) else np_take apqs idxs)
    (idxs2 : List ℕ)
    (hidxs2 : idxs2 = np_where_gt ps (if calc_p then pcrit else pqcrit))
    (hne : idxs2 ≠ []) :
    (calc_p = false → idxs2 = List.range idxs.length) ∧
    ∃ k, k < idxs2.length ∧
      find_pl_post axmins axmaxs aalphas apqs pqcrit pcrit calc_p fpc =
        (axmins.getD (idxs.getD (idxs2.getD k 0) 0) 0,
         axmaxs.getD (idxs.getD (idxs2.getD k 0) 0) 0,
         aalphas.getD (idxs.getD (idxs2.getD k 0) 0) 0) ∧
      (∀ m, m < idxs2.length →
        axmaxs.getD (idxs.getD (idxs2.getD m 0) 0) 0 /
            axmins.getD (idxs.getD (idxs2.getD m 0) 0) 0 ≤
          axmaxs.getD (idxs.getD (idxs2.getD k 0) 0) 0 /
            axmins.getD (idxs.getD (idxs2.getD k 0) 0) 0) ∧
      (∀ m, m < k →
        axmaxs.getD (idxs.getD (idxs2.getD m 0) 0) 0 /
            axmins.getD (idxs.getD (idxs2.getD m 0) 0) 0 <
          axmaxs.getD (idxs.getD (idxs2.getD k 0) 0) 0 /
            axmins.getD (idxs.getD (idxs2.getD k 0) 0) 0) := by
  have hpslen : ps.length = idxs.length := by
    rw [hps]
    cases calc_p
    · simp [length_np_take]
    · simp [hfpc, length_np_take]
  have hidxs_ne : idxs ≠ [] := by
    intro h
    apply hne
    have hps0 : ps = [] := List.length_eq_zero.mp (by rw [hpslen, h]; rfl)
    rw [hidxs2, hps0]
    rfl
  constructor
  · intro hfalse
    have hps' : ps = np_take apqs idxs := by rw [hps, hfalse]; simp
    have hidxs2' : idxs2 = np_where_gt ps pqcrit := by rw [hidxs2, hfalse]; simp
    rw [hidxs2', np_where_gt_all ps pqcrit ?_, hpslen]
    intro k hk
    have hk' : k < idxs.length := hpslen ▸ hk
    rw [hps', np_take_getD apqs idxs hk']
    have hkw : k < (np_where_gt apqs pqcrit).length := by rw [← hidxs]; exact hk'
    have := np_where_gt_getD apqs pqcrit hkw
    rw [← hidxs] at this
    exact this.2
  · simp only [find_pl_post]
    rw [← hidxs, if_neg hidxs_ne, ← hps, ← hidxs2, if_neg hne]
    set R := List.zipWith (fun u v => u / v) (np_take (np_take axmaxs idxs) idxs2)
      (np_take (np_take axmins idxs) idxs2) with hR
    have hRlen : R.length = idxs2.length := by
      rw [hR, List.length_zipWith, length_np_take, length_np_take]
      exact min_self _
    have hRne : R ≠ [] := by
      intro h
      apply hne
      apply List.length_eq_zero.mp
      rw [← hRlen, h]
      rfl
    obtain ⟨hklt0, hmax, hfirst⟩ := npArgmax_spec R hRne
    have hklt : npArgmax R < idxs2.length := hRlen ▸ hklt0
    have hI2lt : ∀ m, m < idxs2.length → idxs2.getD m 0 < idxs.length := by
      intro m hm
      have hmw : m < (np_where_gt ps (if calc_p then pcrit else pqcrit)).length := by
        rw [← hidxs2]; exact hm
      have h := np_where_gt_getD ps (if calc_p then pcrit else pqcrit) hmw
      rw [← hidxs2] at h
      exact hpslen ▸ h.1
    have hRget : ∀ m, m < idxs2.length → R.getD m 0 =
        axmaxs.getD (idxs.getD (idxs2.getD m 0) 0) 0 /
          axmins.getD (idxs.getD (idxs2.getD m 0) 0) 0 := by
      intro m hm
      rw [hR, zipWith_getD _ _ _ (by rw [length_np_take]; exact hm)
        (by rw [length_np_take]; exact hm),
        np_take_getD _ _ hm, np_take_getD _ _ hm,
        np_take_getD _ _ (hI2lt m hm), np_take_getD _ _ (hI2lt m hm)]
    refine ⟨npArgmax R, hklt, ?_, ?_, ?_⟩
    · rw [np_take_getD _ _ hklt, np_take_getD _ _ (hI2lt _ hklt),
        np_take_getD _ _ hklt, np_take_getD _ _ (hI2lt _ hklt),
        np_take_getD _ _ hklt, np_take_getD _ _ (hI2lt _ hklt)]
    · intro m hm
      rw [← hRget m hm, ← hRget _ hklt]
      exact hmax m (by rw [hRlen]; exact hm)
    · intro m hm
      rw [← hRget m (lt_trans hm hklt), ← hRget _ hklt]
      exact hfirst m hm

/-- Witness for C1 at a concrete two-trial batch over ℚ (with `calc_p`
false): both trials survive, and the selection picks the larger
`xmax/xmin`. -/
theorem c1_selection_witness :
    (([0, 1] : List ℕ) ≠ []) ∧
    ((false = false → ([0, 1] : List ℕ) = List.range ([0, 1] : List ℕ).length) ∧
      ∃ k, k < ([0, 1] : List ℕ).length ∧
        find_pl_post ([1, 1] : List ℚ) [3, 4] [2, 2] [1, 2] 0 0 false (fun u _ => u) =
          (([1, 1] : List ℚ).getD (([0, 1] : List ℕ).getD (([0, 1] : List ℕ).getD k 0) 0) 0,
           ([3, 4] : List ℚ).getD (([0, 1] : List ℕ).getD (([0, 1] : List ℕ).getD k 0) 0) 0,
           ([2, 2] : List ℚ).getD (([0, 1] : List ℕ).getD (([0, 1] : List ℕ).getD k 0) 0) 0) ∧
        (∀ m, m < ([0, 1] : List ℕ).length →
          ([3, 4] : List ℚ).getD (([0, 1] : List ℕ).getD (([0, 1] : List ℕ).getD m 0) 0) 0 /
              ([1, 1] : List ℚ).getD (([0, 1] : List ℕ).getD (([0, 1] : List ℕ).getD m 0) 0) 0 ≤
            ([3, 4] : List ℚ).getD (([0, 1] : List ℕ).getD (([0, 1] : List ℕ).getD k 0) 0) 0 /
              ([1, 1] : List ℚ).getD (([0, 1] : List ℕ).getD (([0, 1] : List ℕ).getD k 0) 0) 0) ∧
        (∀ m, m < k →
          ([3, 4] : List ℚ).getD (([0, 1] : List ℕ).getD (([0, 1] : List ℕ).getD m 0) 0) 0 /
              ([1, 1] : List ℚ).getD (([0, 1] : List ℕ).getD (([0, 1] : List ℕ).getD m 0) 0) 0 <
            ([3, 4] : List ℚ).getD (([0, 1] : List ℕ).getD (([0, 1] : List ℕ).getD k 0) 0) 0 /
              ([1, 1] : List ℚ).getD (([0, 1] : List ℕ).getD (([0, 1] : List ℕ).getD k 0) 0) 0)) :=
  ⟨by decide,
    c1_selection ([1, 1] : List ℚ) [3, 4] [2, 2] [1, 2] 0 0 false (fun u _ => u)
      (fun u v => rfl) [0, 1] (by norm_num [np_where_gt, List.filter])
      [1, 2] (by norm_num [np_take]) [0, 1] (by norm_num [np_where_gt, List.filter])
      (by decide)⟩

/-- Claim C4: the two empty-candidate-set fallbacks of `find_pl_montecarlo`.
If no trial has `approx_p > pqcrit`, the selection phase returns (without
error) the triple of the trial at `argmax(attempted_pqs)` over the entire
unfiltered batch — the first trial attaining the maximal approximate p.  If
approx-survivors exist but none passes the true-p filter, it returns the
approx-survivor at `argmax(possible_ps)` — the first survivor attaining the
maximal refined p. -/
theorem c4_fallbacks (axmins axmaxs aalphas apqs : List α) (pqcrit pcrit : α)
    (calc_p : Bool) (fpc : List α → List α → List α)
    (hfpc : ∀ u v : List α, (fpc u v).length = u.length)
    (hapqs : apqs ≠ [])
    (idxs : List ℕ) (hidxs : idxs = np_where_gt apqs pqcrit)
    (ps : List α) (hps : ps = if calc_p then
      fpc (np_take axmins idxs) (np_take axmaxs idxs) else np_take apqs idxs)
    (idxs2 : List ℕ)
    (hidxs2 : idxs2 = np_where_gt ps (if calc_p then pcrit else pqcrit)) :
    (idxs = [] →
      find_pl_post axmins axmaxs aalphas apqs pqcrit pcrit calc_p fpc =
        (axmins.getD (npArgmax apqs) 0, axmaxs.getD (npArgmax apqs) 0,
          aalphas.getD (npArgmax apqs) 0) ∧
      npArgmax apqs < apqs.length ∧
      (∀ j, j < apqs.length → apqs.getD j 0 ≤ apqs.getD (npArgmax apqs) 0) ∧
      (∀ j, j < npArgmax apqs → apqs.getD j 0 < apqs.getD (npArgmax apqs) 0)) ∧
    (idxs ≠ [] → idxs2 = [] →
      find_pl_post axmins axmaxs aalphas apqs pqcrit pcrit calc_p fpc =
        (axmins.getD (idxs.getD (npArgmax ps) 0) 0,
         axmaxs.getD (idxs.getD (npArgmax ps) 0) 0,
         aalphas.getD (idxs.getD (npArgmax ps) 0) 0) ∧
      npArgmax ps < idxs.length ∧
      (∀ m, m < ps.length → ps.getD m 0 ≤ ps.getD (npArgmax ps) 0) ∧
      (∀ m, m < npArgmax ps → ps.getD m 0 < ps.getD (npArgmax ps) 0)) := by
  have hpslen : ps.length = idxs.length := by
    rw [hps]
    cases calc_p
    · simp [length_np_take]
    · simp [hfpc, length_np_take]
  constructor
  · intro hI
    simp only [find_pl_post]
    rw [← hidxs, if_pos hI]
    obtain ⟨h1, h2, h3⟩ := npArgmax_spec apqs hapqs
    exact ⟨rfl, h1, h2, h3⟩
  · intro hIne hI2
    simp only [find_pl_post]
    rw [← hidxs, if_neg hIne, ← hps, ← hidxs2, if_pos hI2]
    have hpsne : ps ≠ [] := by
      intro h
      apply hIne
      apply List.length_eq_zero.mp
      rw [← hpslen, h]
      rfl
    obtain ⟨h1, h2, h3⟩ := npArgmax_spec ps hpsne
    have hlt : npArgmax ps < idxs.length := hpslen ▸ h1
    refine ⟨?_, hlt, h2, h3⟩
    rw [np_take_getD _ _ hlt, np_take_getD _ _ hlt, np_take_getD _ _ hlt]

/-- Witness for C4 at a concrete batch over ℚ exercising the second fallback
(the refinement sends every survivor's p to 0, so the true-p filter is
empty). -/
theorem c4_fallbacks_witness :
    (([1, 2] : List ℚ) ≠ []) ∧
    ((([0, 1] : List ℕ) = [] →
      find_pl_post ([1, 1] : List ℚ) [3, 4] [2, 2] [1, 2] 0 0 true
          (fun u _ => u.map fun _ => 0) =
        (([1, 1] : List ℚ).getD (npArgmax ([1, 2] : List ℚ)) 0,
         ([3, 4] : List ℚ).getD (npArgmax ([1, 2] : List ℚ)) 0,
         ([2, 2] : List ℚ).getD (npArgmax ([1, 2] : List ℚ)) 0) ∧
      npArgmax ([1, 2] : List ℚ) < ([1, 2] : List ℚ).length ∧
      (∀ j, j < ([1, 2] : List ℚ).length →
        ([1, 2] : List ℚ).getD j 0 ≤ ([1, 2] : List ℚ).getD (npArgmax ([1, 2] : List ℚ)) 0) ∧
      (∀ j, j < npArgmax ([1, 2] : List ℚ) →
        ([1, 2] : List ℚ).getD j 0 < ([1, 2] : List ℚ).getD (npArgmax ([1, 2] : List ℚ)) 0)) ∧
    (([0, 1] : List ℕ) ≠ [] → ([] : List ℕ) = [] →
      find_pl_post ([1, 1] : List ℚ) [3, 4] [2, 2] [1, 2] 0 0 true
          (fun u _ => u.map fun _ => 0) =
        (([1, 1] : List ℚ).getD (([0, 1] : List ℕ).getD (npArgmax ([0, 0] : List ℚ)) 0) 0,
         ([3, 4] : List ℚ).getD (([0, 1] : List ℕ).getD (npArgmax ([0, 0] : List ℚ)) 0) 0,
         ([2, 2] : List ℚ).getD (([0, 1] : List ℕ).getD (npArgmax ([0, 0] : List ℚ)) 0) 0) ∧
      npArgmax ([0, 0] : List ℚ) < ([0, 1] : List ℕ).length ∧
      (∀ m, m < ([0, 0] : List ℚ).length →
        ([0, 0] : List ℚ).getD m 0 ≤ ([0, 0] : List ℚ).getD (npArgmax ([0, 0] : List ℚ)) 0) ∧
      (∀ m, m < npArgmax ([0, 0] : List ℚ) →
        ([0, 0] : List ℚ).getD m 0 < ([0, 0] : List ℚ).getD (npArgmax ([0, 0] : List ℚ)) 0))) :=
  ⟨by decide,
    c4_fallbacks ([1, 1] : List ℚ) [3, 4] [2, 2] [1, 2] 0 0 true
      (fun u _ => u.map fun _ => 0) (fun u v => by simp) (by decide)
      [0, 1] (by norm_num [np_where_gt, List.filter])
      [0, 0] (by norm_num [np_take])
      [] (by norm_num [np_where_gt, List.filter])⟩

/-- Preservation of all buffers below an allocation bound `n0`: the final
heap still has `n0` allocated, and every buffer below `n0` is unchanged. -/
def presBelow (n0 : ℕ) (h h' : Heap α) : Prop :=
  n0 ≤ h'.next ∧ ∀ q, q < n0 → h'.mem q = h.mem q

/-- Transitivity of low-buffer preservation. -/
lemma presBelow_trans {n0 : ℕ} {h1 h2 h3 : Heap α} (p : presBelow n0 h1 h2)
    (p' : presBelow n0 h2 h3) : presBelow n0 h1 h3 :=
  ⟨p'.1, fun q hq => (p'.2 q hq).trans (p.2 q hq)⟩

/-- Allocation only touches the fresh buffer. -/
lemma presBelow_halloc {n0 : ℕ} {h : Heap α} (v : List α) (hn : n0 ≤ h.next) :
    presBelow n0 h (halloc h v).2 :=
  ⟨Nat.le_succ_of_le hn, fun q hq =>
    Function.update_noteq (by omega) _ _⟩

/-- A write into a buffer at or above the bound only touches that buffer. -/
lemma presBelow_hwrite {n0 : ℕ} {h : Heap α} {b : ℕ} (i : ℕ) (v : α)
    (hn : n0 ≤ h.next) (hb : n0 ≤ b) : presBelow n0 h (hwrite h b i v) :=
  ⟨hn, fun q hq => Function.update_noteq (by omega) _ _⟩

/-- Folding steps that each preserve low buffers preserves low buffers. -/
lemma presBelow_foldl {n0 : ℕ} {f : Heap α → ℕ → Heap α}
    (hf : ∀ hh r, n0 ≤ hh.next → presBelow n0 hh (f hh r)) :
    ∀ (l : List ℕ) (h : Heap α), n0 ≤ h.next → presBelow n0 h (l.foldl f h) := by
  intro l
  induction l with
  | nil => intro h hn; exact ⟨hn, fun q hq => rfl⟩
  | cons x xs ih =>
    intro h hn
    rw [List.foldl_cons]
    have p1 := hf h x hn
    exact presBelow_trans p1 (ih (f h x) p1.1)

/-- Reflexivity of low-buffer preservation. -/
lemma presBelow_rfl {n0 : ℕ} {h : Heap α} (hn : n0 ≤ h.next) : presBelow n0 h h :=
  ⟨hn, fun _ _ => rfl⟩

/-- The per-iteration sweep writes target only the six `attempted_*`
buffers, all at or above the bound. -/
lemma presBelow_sweep_write {n0 : ℕ} (batch : List (Trial α))
    {i1 i2 i3 i4 i5 i6 : ℕ}
    (h1 : n0 ≤ i1) (h2 : n0 ≤ i2) (h3 : n0 ≤ i3) (h4 : n0 ≤ i4)
    (h5 : n0 ≤ i5) (h6 : n0 ≤ i6) (hh : Heap α) (r : ℕ) (hn : n0 ≤ hh.next) :
    presBelow n0 hh (sweep_write batch i1 i2 i3 i4 i5 i6 hh r) := by
  simp only [sweep_write]
  have p0 : presBelow n0 hh
      (if 1 < (batch.getD r trialDefault).alpha then
        hwrite hh i6 r (batch.getD r trialDefault).d else hh) := by
    split
    · exact presBelow_hwrite _ _ hn h6
    · exact presBelow_rfl hn
  have p1 := presBelow_trans p0
    (presBelow_hwrite r (batch.getD r trialDefault).pq p0.1 h5)
  have p2 := presBelow_trans p1
    (presBelow_hwrite r ((batch.getD r trialDefault).n : α) p1.1 h4)
  have p3 := presBelow_trans p2
    (presBelow_hwrite r (batch.getD r trialDefault).alpha p2.1 h3)
  have p4 := presBelow_trans p3
    (presBelow_hwrite r (batch.getD r trialDefault).xmin p3.1 h1)
  exact presBelow_trans p4
    (presBelow_hwrite r (batch.getD r trialDefault).xmax p4.1 h2)

/-- The `find_p_core` write targets only the fresh `possible_ps` buffer. -/
lemma presBelow_true_p_write {n0 : ℕ} (nearest : List α → α → ℕ)
    (brent : List α → α) (dfun : List α → α → α) (S : α → α)
    (plgen : ℕ → ℕ → ℕ → α → α → α → List α)
    (data pxmins pxmaxs : List α) (pruns : ℕ) {pid : ℕ} (hpid : n0 ≤ pid)
    (hh : Heap α) (i : ℕ) (hn : n0 ≤ hh.next) :
    presBelow n0 hh
      (true_p_write nearest brent dfun S plgen data pxmins pxmaxs pruns pid hh i) := by
  simp only [true_p_write]
  exact presBelow_hwrite _ _ hn hpid

/-- Growing a preservation chain by an allocation. -/
lemma presBelow_halloc_after {n0 : ℕ} {h h2 : Heap α} {v : List α}
    (p : presBelow n0 h h2) : presBelow n0 h (halloc h2 v).2 :=
  presBelow_trans p (presBelow_halloc v p.1)

/-- Growing a preservation chain by the sweep-write loop. -/
lemma presBelow_foldl_sweep_after {n0 : ℕ} {h h2 : Heap α}
    {batch : List (Trial α)} {i1 i2 i3 i4 i5 i6 : ℕ} {l : List ℕ}
    (p : presBelow n0 h h2) (hi1 : n0 ≤ i1) (hi2 : n0 ≤ i2) (hi3 : n0 ≤ i3)
    (hi4 : n0 ≤ i4) (hi5 : n0 ≤ i5) (hi6 : n0 ≤ i6) :
    presBelow n0 h (l.foldl (sweep_write batch i1 i2 i3 i4 i5 i6) h2) :=
  presBelow_trans p
    (presBelow_foldl
      (fun hh r hn' => presBelow_sweep_write batch hi1 hi2 hi3 hi4 hi5 hi6 hh r hn')
      l h2 p.1)

/-- The whole of `find_p_core` preserves previously allocated buffers. -/
lemma presBelow_find_p_core_heap {n0 : ℕ} (nearest : List α → α → ℕ)
    (brent : List α → α) (dfun : List α → α → α) (S : α → α)
    (plgen : ℕ → ℕ → ℕ → α → α → α → List α)
    (h : Heap α) (data pxmins pxmaxs : List α) (pruns : ℕ) (hn : n0 ≤ h.next) :
    presBelow n0 h (find_p_core_heap nearest brent dfun S plgen h data pxmins pxmaxs pruns).2 := by
  simp only [find_p_core_heap]
  have p0 := presBelow_halloc (h := h) (List.replicate pxmins.length 0) hn
  refine presBelow_trans p0 (presBelow_foldl (fun hh r hn' => ?_) _ _ p0.1)
  exact presBelow_true_p_write nearest brent dfun S plgen data pxmins pxmaxs
    pruns hn hh r hn'

/-- Growing a preservation chain by a `find_p_core` call. -/
lemma presBelow_core_after {n0 : ℕ} {h h2 : Heap α}
    {nearest : List α → α → ℕ} {brent : List α → α} {dfun : List α → α → α}
    {S : α → α} {plgen : ℕ → ℕ → ℕ → α → α → α → List α}
    {data pxmins pxmaxs : List α} {pruns : ℕ}
    (p : presBelow n0 h h2) :
    presBelow n0 h (find_p_core_heap nearest brent dfun S plgen h2 data pxmins pxmaxs pruns).2 :=
  presBelow_trans p
    (presBelow_find_p_core_heap nearest brent dfun S plgen h2 data pxmins pxmaxs pruns p.1)

/-- The whole of the dispatched body of `find_pl_montecarlo` preserves
previously allocated buffers. -/
lemma presBelow_find_pl_body_heap {n0 : ℕ} (cb : Collab α)
    (distfun dfun : List α → α → α) (brent : List α → α)
    (nf nl : List α → α → ℕ) (h0 : Heap α) (dId runs : ℕ) (pqcrit pcrit : α)
    (pruns fuel : ℕ) (calc_p : Bool) (hn : n0 ≤ h0.next) :
    presBelow n0 h0
      (find_pl_body_heap cb distfun dfun brent nf nl h0 dId runs pqcrit pcrit
        pruns fuel calc_p).2 := by
  simp only [find_pl_body_heap]
  split
  · exact presBelow_halloc_after (presBelow_halloc_after (presBelow_halloc_after
      (presBelow_halloc_after (presBelow_halloc_after (presBelow_halloc_after
        (presBelow_rfl hn))))))
  · by_cases hcp : calc_p = true
    · simp only [hcp, if_true]
      apply presBelow_halloc_after
      apply presBelow_halloc_after
      apply presBelow_halloc_after
      apply presBelow_halloc_after
      apply presBelow_halloc_after
      apply presBelow_core_after
      apply presBelow_halloc_after
      apply presBelow_halloc_after
      apply presBelow_halloc_after
      apply presBelow_halloc_after
      apply presBelow_halloc_after
      apply presBelow_foldl_sweep_after
      · exact presBelow_halloc_after (presBelow_halloc_after (presBelow_halloc_after
          (presBelow_halloc_after (presBelow_halloc_after (presBelow_halloc_after
            (presBelow_rfl hn))))))
      · exact le_trans hn (show h0.next ≤ h0.next + 0 by omega)
      · exact le_trans hn (show h0.next ≤ h0.next + 1 by omega)
      · exact le_trans hn (show h0.next ≤ h0.next + 1 + 1 by omega)
      · exact le_trans hn (show h0.next ≤ h0.next + 1 + 1 + 1 by omega)
      · exact le_trans hn (show h0.next ≤ h0.next + 1 + 1 + 1 + 1 by omega)
      · exact le_trans hn (show h0.next ≤ h0.next + 1 + 1 + 1 + 1 + 1 by omega)
    · simp only [hcp, if_false]
      apply presBelow_halloc_after
      apply presBelow_halloc_after
      apply presBelow_halloc_after
      apply presBelow_halloc_after
      apply presBelow_halloc_after
      apply presBelow_halloc_after
      apply presBelow_halloc_after
      apply presBelow_halloc_after
      apply presBelow_halloc_after
      apply presBelow_halloc_after
      apply presBelow_foldl_sweep_after
      · exact presBelow_halloc_after (presBelow_halloc_after (presBelow_halloc_after
          (presBelow_halloc_after (presBelow_halloc_after (presBelow_halloc_after
            (presBelow_rfl hn))))))
      · exact le_trans hn (show h0.next ≤ h0.next + 0 by omega)
      · exact le_trans hn (show h0.next ≤ h0.next + 1 by omega)
      · exact le_trans hn (show h0.next ≤ h0.next + 1 + 1 by omega)
      · exact le_trans hn (show h0.next ≤ h0.next + 1 + 1 + 1 by omega)
      · exact le_trans hn (show h0.next ≤ h0.next + 1 + 1 + 1 + 1 by omega)
      · exact le_trans hn (show h0.next ≤ h0.next + 1 + 1 + 1 + 1 + 1 by omega)

/-- Growing a preservation chain by a dispatched-body call. -/
lemma presBelow_body_after {n0 : ℕ} {h h2 : Heap α} {cb : Collab α}
    {distfun dfun : List α → α → α} {brent : List α → α}
    {nf nl : List α → α → ℕ} {dId runs : ℕ} {pqcrit pcrit : α}
    {pruns fuel : ℕ} {calc_p : Bool} (p : presBelow n0 h h2) :
    presBelow n0 h
      (find_pl_body_heap cb distfun dfun brent nf nl h2 dId runs pqcrit pcrit
        pruns fuel calc_p).2 :=
  presBelow_trans p
    (presBelow_find_pl_body_heap cb distfun dfun brent nf nl h2 dId runs pqcrit
      pcrit pruns fuel calc_p p.1)

/-- Claim C10: neither `find_pl_montecarlo` nor `find_p_wrap` mutates the
caller's input buffer: `np.sort` allocates a new sorted copy, and every
subsequent write of either function targets a buffer allocated inside the
call, so the input buffer's contents are identical before and after the
call. -/
theorem c10_no_input_mutation (cb : Collab α)
    (nearest : List α → α → ℕ) (brent : List α → α) (dfun : List α → α → α)
    (S : α → α) (plgen : ℕ → ℕ → α → α → α → List α)
    (h0 g0 : Heap α) (dataId xId runs : ℕ) (pqcrit pcrit : α)
    (pruns fuel : ℕ) (dist_type : String) (calc_p : Bool)
    (xmin xmax : α) (pwruns : ℕ) (discrete : Bool)
    (hd : dataId < h0.next) (hx : xId < g0.next) :
    (find_pl_montecarlo_heap cb h0 dataId runs pqcrit pcrit pruns dist_type
      calc_p fuel).2.mem dataId = h0.mem dataId ∧
    (find_p_wrap_heap nearest brent dfun S plgen g0 xId xmin xmax pwruns
      discrete).2.mem xId = g0.mem xId := by
  constructor
  · simp only [find_pl_montecarlo_heap]
    have p0 : presBelow (dataId + 1) h0 (halloc h0 (np_sort (hread h0 dataId))).2 :=
      presBelow_halloc _ hd
    split
    · exact (presBelow_body_after p0).2 dataId (Nat.lt_succ_self dataId)
    · split
      · exact (presBelow_body_after p0).2 dataId (Nat.lt_succ_self dataId)
      · split
        · split
          · exact p0.2 dataId (Nat.lt_succ_self dataId)
          · exact (presBelow_body_after p0).2 dataId (Nat.lt_succ_self dataId)
        · exact p0.2 dataId (Nat.lt_succ_self dataId)
  · simp only [find_p_wrap_heap]
    split
    · exact (presBelow_halloc (np_sort (hread g0 xId)) (Nat.succ_le_of_lt hx)).2
        xId (Nat.lt_succ_self xId)
    · rfl

/-- Witness for C10 at a concrete one-buffer heap over ℚ. -/
theorem c10_no_input_mutation_witness :
    (0 : ℕ) < (Heap.mk (fun _ => ([] : List ℚ)) 1).next ∧
    ((find_pl_montecarlo_heap qcb (Heap.mk (fun _ => ([] : List ℚ)) 1) 0 1 0 0 1
        "XYZ" true 1).2.mem 0 = (Heap.mk (fun _ => ([] : List ℚ)) 1).mem 0 ∧
      (find_p_wrap_heap (fun _ _ => 0) qf1 qf2 qf0 (fun _ _ _ _ _ => [])
        (Heap.mk (fun _ => ([] : List ℚ)) 1) 0 0 0 1 false).2.mem 0 =
        (Heap.mk (fun _ => ([] : List ℚ)) 1).mem 0) :=
  ⟨Nat.zero_lt_one,
    c10_no_input_mutation qcb (fun _ _ => 0) qf1 qf2 qf0 (fun _ _ _ _ _ => [])
      (Heap.mk (fun _ => ([] : List ℚ)) 1) (Heap.mk (fun _ => ([] : List ℚ)) 1)
      0 0 1 0 0 1 1 "XYZ" true 0 0 1 false Nat.zero_lt_one Nat.zero_lt_one⟩

end Claims

end Montecarlo
